import Mathlib

/-!
# Modem construction and arbitrary-constellation loading (`modem_create.c`)

A shallow embedding of `src/modem/src/modem_create.c`.

* `unsigned int` values are natural numbers; the shifts and the arithmetic that can leave the
  32-bit range are reduced modulo `2 ^ 32`.
* `float` and `float complex` values are elements of an ordered field `F` (exact arithmetic);
  the definitions are polymorphic in `F`, so they evaluate over `ℚ` and are reasoned about
  over `ℝ`.
* `exit(...)` after a diagnostic is an error result; each exit site carries the error name of
  its diagnostic.
* What `liquid.internal.h` and `math.h` supply (the width ceiling, the validation switch, the
  tabulated scale factors, `M_PI`, `sqrtf`) is a field of `Config`.
-/

namespace Modem

/-- Scheme tags of `modulation_scheme`: the thirteen tags `modem_create` switches on; every other
value of the enumeration type is `unrecognized`. -/
inductive modulation_scheme where
  | MOD_PSK
  | MOD_DPSK
  | MOD_ASK
  | MOD_QAM
  | MOD_APSK
  | MOD_ARB
  | MOD_ARB_MIRRORED
  | MOD_ARB_ROTATED
  | MOD_BPSK
  | MOD_QPSK
  | MOD_APSK16
  | MOD_APSK32
  | MOD_APSK64
  | unrecognized (code : Nat)
  deriving DecidableEq, Repr

/-- Outcomes other than a normal return. The first six are the exit sites of the file, named by
their diagnostic; `AssertFailed` is a failed `assert`, `MemoryFault` a store or load through a
null `symbol_map` or past its allocation. -/
inductive ModemError where
  | InvalidConfig
  | UnsupportedScheme
  | SchemeMismatch
  | SizeMismatch
  | ParseError
  | IOError
  | AssertFailed
  | MemoryFault
  deriving DecidableEq, Repr

/-- A `float complex` value. -/
structure Cplx (F : Type) where
  re : F
  im : F
  deriving DecidableEq, Repr

/-- The static amplitude-phase table sets (`apsk16_*`, `apsk32_*`, `apsk64_*`) a modem's
`apsk_*` pointers can be bound to. -/
inductive ApskTables where
  | apsk16
  | apsk32
  | apsk64
  deriving DecidableEq, Repr

/-- The modulate/demodulate routine pairs a modem's function pointers can be bound to. -/
inductive ModemFunc where
  | ask
  | qam
  | psk
  | bpsk
  | qpsk
  | dpsk
  | apsk
  | arb
  deriving DecidableEq, Repr

/-- What the headers supply to `modem_create.c`. -/
structure Config (F : Type) where
  MAX_MOD_BITS_PER_SYMBOL : Nat
  LIQUID_VALIDATE_INPUT : Bool
  M_PI : F
  sqrtf : F → F
  ASK2_ALPHA : F
  ASK4_ALPHA : F
  ASK8_ALPHA : F
  ASK16_ALPHA : F
  ASK32_ALPHA : F
  RQAM4_ALPHA : F
  RQAM8_ALPHA : F
  RQAM16_ALPHA : F
  RQAM32_ALPHA : F
  RQAM64_ALPHA : F
  RQAM128_ALPHA : F
  RQAM256_ALPHA : F
  RQAM512_ALPHA : F
  RQAM1024_ALPHA : F
  RQAM2048_ALPHA : F
  RQAM4096_ALPHA : F

/-- The fields of `struct modem_s` that `modem_create.c` touches. `ref` has one slot per
possible bit, `none` while a slot has not been written; `symbol_map = none` is the null pointer;
`apsk` and the function pointers are `none` until bound. -/
structure modem_s (F : Type) where
  scheme : modulation_scheme
  m : Nat
  M : Nat
  m_i : Nat
  M_i : Nat
  m_q : Nat
  M_q : Nat
  alpha : F
  ref : List (Option F)
  symbol_map : Option (List (Cplx F))
  state : Cplx F
  state_theta : F
  res : Cplx F
  phase_error : F
  evm : F
  d_phi : F
  apsk : Option ApskTables
  modulate_func : Option ModemFunc
  demodulate_func : Option ModemFunc

/-- Word size of `unsigned int`. -/
def UINT_SIZE : Nat := 4294967296

/-- The C expression `a << k` stored in an `unsigned int`. -/
def shl32 (a k : Nat) : Nat := (a <<< k) % UINT_SIZE

/-- Unsigned subtraction `a - b`. -/
def sub32 (a b : Nat) : Nat := (a + UINT_SIZE - b % UINT_SIZE) % UINT_SIZE

/-- Unsigned multiplication `a * b`. -/
def mul32 (a b : Nat) : Nat := (a * b) % UINT_SIZE

variable {F : Type} [LinearOrderedField F]

/-- A real value converted to `float complex`. -/
def Cplx.ofReal (x : F) : Cplx F := ⟨x, 0⟩

/-- The block `malloc(sizeof(struct modem_s))` returns, with `scheme` stored: the `ref` slots and
the table and function pointers are unwritten; the other fields are overwritten by `modem_init`
before anything reads them. -/
def modem_alloc (cfg : Config F) (scheme : modulation_scheme) : modem_s F :=
  { scheme := scheme, m := 0, M := 0, m_i := 0, M_i := 0, m_q := 0, M_q := 0, alpha := 0,
    ref := List.replicate cfg.MAX_MOD_BITS_PER_SYMBOL none, symbol_map := none,
    state := Cplx.ofReal 0, state_theta := 0, res := Cplx.ofReal 0, phase_error := 0, evm := 0,
    d_phi := 0, apsk := none, modulate_func := none, demodulate_func := none }

/-- `modem_init`. -/
def modem_init (cfg : Config F) (mod : modem_s F) (bits_per_symbol : Nat) :
    Except ModemError (modem_s F) :=
  if bits_per_symbol < 1 then .error .InvalidConfig
  else if bits_per_symbol > cfg.MAX_MOD_BITS_PER_SYMBOL then .error .InvalidConfig
  else
    .ok { mod with
      m := bits_per_symbol, M := shl32 1 bits_per_symbol,
      m_i := 0, M_i := 0, m_q := 0, M_q := 0,
      alpha := 0, symbol_map := none,
      state := Cplx.ofReal 0, state_theta := 0, res := Cplx.ofReal 0,
      phase_error := 0, evm := 0, d_phi := 0,
      modulate_func := none, demodulate_func := none }

/-- The loop `for (k=0; k<m; k++) ref[k] = (1<<k) * alpha;`. In the source `1<<k` is an `int`;
for `k ≤ 30` it is the number `2 ^ k`, as here, and at `k = 31` the `int` is negative where this
value is `2 ^ 31`: the theorems about `ref` keep `m < 32`, so `k ≤ 30`. -/
def build_ref (m : Nat) (alpha : F) (ref : List (Option F)) : List (Option F) :=
  (List.range m).foldl (fun r k => r.set k (some ((shl32 1 k : Nat) * alpha))) ref

/-- `modem_create_ask`. -/
def modem_create_ask (cfg : Config F) (bits_per_symbol : Nat) : Except ModemError (modem_s F) := do
  let mod ← modem_init cfg (modem_alloc cfg .MOD_ASK) bits_per_symbol
  let mod := { mod with m_i := mod.m, M_i := mod.M }
  let alpha : F :=
    if mod.M = 2 then cfg.ASK2_ALPHA
    else if mod.M = 4 then cfg.ASK4_ALPHA
    else if mod.M = 8 then cfg.ASK8_ALPHA
    else if mod.M = 16 then cfg.ASK16_ALPHA
    else if mod.M = 32 then cfg.ASK32_ALPHA
    else cfg.sqrtf 3 / (mod.M : F)
  let mod := { mod with alpha := alpha }
  let mod := { mod with ref := build_ref mod.m mod.alpha mod.ref }
  .ok { mod with modulate_func := some .ask, demodulate_func := some .ask }

/-- `modem_create_qam`. The two branches of the parity test assign the pair `(m_i, m_q)`; the two
`assert`s are checks that stop the call. -/
def modem_create_qam (cfg : Config F) (bits_per_symbol : Nat) : Except ModemError (modem_s F) := do
  if bits_per_symbol < 1 then .error .InvalidConfig
  else
    let mod ← modem_init cfg (modem_alloc cfg .MOD_QAM) bits_per_symbol
    let split : Nat × Nat :=
      if mod.m % 2 ≠ 0 then (((mod.m + 1) % UINT_SIZE) >>> 1, (sub32 mod.m 1) >>> 1)
      else (mod.m >>> 1, mod.m >>> 1)
    let mod := { mod with m_i := split.1, m_q := split.2 }
    let mod := { mod with M_i := shl32 1 mod.m_i }
    let mod := { mod with M_q := shl32 1 mod.m_q }
    if (mod.m_i + mod.m_q) % UINT_SIZE ≠ mod.m then .error .AssertFailed
    else if mul32 mod.M_i mod.M_q ≠ mod.M then .error .AssertFailed
    else
      let alpha : F :=
        if mod.M = 4 then cfg.RQAM4_ALPHA
        else if mod.M = 8 then cfg.RQAM8_ALPHA
        else if mod.M = 16 then cfg.RQAM16_ALPHA
        else if mod.M = 32 then cfg.RQAM32_ALPHA
        else if mod.M = 64 then cfg.RQAM64_ALPHA
        else if mod.M = 128 then cfg.RQAM128_ALPHA
        else if mod.M = 256 then cfg.RQAM256_ALPHA
        else if mod.M = 512 then cfg.RQAM512_ALPHA
        else if mod.M = 1024 then cfg.RQAM1024_ALPHA
        else if mod.M = 2048 then cfg.RQAM2048_ALPHA
        else if mod.M = 4096 then cfg.RQAM4096_ALPHA
        else cfg.sqrtf (2 / (mod.M : F))
      let mod := { mod with alpha := alpha }
      let mod := { mod with ref := build_ref mod.m mod.alpha mod.ref }
      .ok { mod with modulate_func := some .qam, demodulate_func := some .qam }

/-- `modem_create_psk`. -/
def modem_create_psk (cfg : Config F) (bits_per_symbol : Nat) : Except ModemError (modem_s F) := do
  let mod ← modem_init cfg (modem_alloc cfg .MOD_PSK) bits_per_symbol
  let mod := { mod with alpha := cfg.M_PI / (mod.M : F) }
  let mod := { mod with ref := build_ref mod.m mod.alpha mod.ref }
  let mod := { mod with d_phi := cfg.M_PI * (1 - 1 / (mod.M : F)) }
  .ok { mod with modulate_func := some .psk, demodulate_func := some .psk }

/-- `modem_create_bpsk`. -/
def modem_create_bpsk (cfg : Config F) : Except ModemError (modem_s F) := do
  let mod ← modem_init cfg (modem_alloc cfg .MOD_BPSK) 1
  .ok { mod with modulate_func := some .bpsk, demodulate_func := some .bpsk }

/-- `modem_create_qpsk`. -/
def modem_create_qpsk (cfg : Config F) : Except ModemError (modem_s F) := do
  let mod ← modem_init cfg (modem_alloc cfg .MOD_QPSK) 2
  .ok { mod with modulate_func := some .qpsk, demodulate_func := some .qpsk }

/-- `modem_create_dpsk`. -/
def modem_create_dpsk (cfg : Config F) (bits_per_symbol : Nat) : Except ModemError (modem_s F) := do
  let mod ← modem_init cfg (modem_alloc cfg .MOD_DPSK) bits_per_symbol
  let mod := { mod with alpha := cfg.M_PI / (mod.M : F) }
  let mod := { mod with ref := build_ref mod.m mod.alpha mod.ref }
  let mod := { mod with d_phi := cfg.M_PI * (1 - 1 / (mod.M : F)) }
  let mod := { mod with state := Cplx.ofReal 1 }
  let mod := { mod with state_theta := 0 }
  .ok { mod with modulate_func := some .dpsk, demodulate_func := some .dpsk }

/-- `modem_create_apsk16`. -/
def modem_create_apsk16 (cfg : Config F) (bits_per_symbol : Nat) :
    Except ModemError (modem_s F) := do
  if bits_per_symbol ≠ 4 then .error .InvalidConfig
  else
    let mod ← modem_init cfg (modem_alloc cfg .MOD_APSK16) 4
    let mod := { mod with apsk := some .apsk16 }
    .ok { mod with modulate_func := some .apsk, demodulate_func := some .apsk }

/-- `modem_create_apsk32`. -/
def modem_create_apsk32 (cfg : Config F) (bits_per_symbol : Nat) :
    Except ModemError (modem_s F) := do
  if bits_per_symbol ≠ 5 then .error .InvalidConfig
  else
    let mod ← modem_init cfg (modem_alloc cfg .MOD_APSK32) 5
    let mod := { mod with apsk := some .apsk32 }
    .ok { mod with modulate_func := some .apsk, demodulate_func := some .apsk }

/-- `modem_create_apsk64`. -/
def modem_create_apsk64 (cfg : Config F) (bits_per_symbol : Nat) :
    Except ModemError (modem_s F) := do
  if bits_per_symbol ≠ 6 then .error .InvalidConfig
  else
    let mod ← modem_init cfg (modem_alloc cfg .MOD_APSK64) 6
    let mod := { mod with apsk := some .apsk64 }
    .ok { mod with modulate_func := some .apsk, demodulate_func := some .apsk }

/-- `modem_create_apsk`. -/
def modem_create_apsk (cfg : Config F) (bits_per_symbol : Nat) : Except ModemError (modem_s F) :=
  if bits_per_symbol = 4 then modem_create_apsk16 cfg bits_per_symbol
  else if bits_per_symbol = 5 then modem_create_apsk32 cfg bits_per_symbol
  else if bits_per_symbol = 6 then modem_create_apsk64 cfg bits_per_symbol
  else .error .InvalidConfig

/-- `calloc(M, sizeof(float complex))`: `M` points, all zero. -/
def calloc_symbol_map (M : Nat) : Option (List (Cplx F)) :=
  some (List.replicate M (Cplx.ofReal 0))

/-- `modem_create_arb`. -/
def modem_create_arb (cfg : Config F) (bits_per_symbol : Nat) : Except ModemError (modem_s F) := do
  let mod ← modem_init cfg (modem_alloc cfg .MOD_ARB) bits_per_symbol
  let mod := { mod with M := mod.M }
  let mod := { mod with symbol_map := calloc_symbol_map mod.M }
  .ok { mod with modulate_func := some .arb, demodulate_func := some .arb }

/-- `modem_create_arb_mirrored`. -/
def modem_create_arb_mirrored (cfg : Config F) (bits_per_symbol : Nat) :
    Except ModemError (modem_s F) := do
  let mod ← modem_init cfg (modem_alloc cfg .MOD_ARB_MIRRORED) bits_per_symbol
  let mod := { mod with M := mod.M >>> 2 }
  let mod := { mod with symbol_map := calloc_symbol_map mod.M }
  .ok { mod with modulate_func := some .arb, demodulate_func := some .arb }

/-- `modem_create_arb_rotated`. -/
def modem_create_arb_rotated (cfg : Config F) (bits_per_symbol : Nat) :
    Except ModemError (modem_s F) := do
  let mod ← modem_init cfg (modem_alloc cfg .MOD_ARB_ROTATED) bits_per_symbol
  let mod := { mod with M := mod.M >>> 2 }
  let mod := { mod with symbol_map := calloc_symbol_map mod.M }
  .ok { mod with modulate_func := some .arb, demodulate_func := some .arb }

/-- `modem_create`. -/
def modem_create (cfg : Config F) (scheme : modulation_scheme) (bits_per_symbol : Nat) :
    Except ModemError (modem_s F) :=
  if bits_per_symbol < 1 then .error .InvalidConfig
  else if bits_per_symbol > cfg.MAX_MOD_BITS_PER_SYMBOL then .error .InvalidConfig
  else
    match scheme with
    | .MOD_PSK => modem_create_psk cfg bits_per_symbol
    | .MOD_DPSK => modem_create_dpsk cfg bits_per_symbol
    | .MOD_ASK => modem_create_ask cfg bits_per_symbol
    | .MOD_QAM => modem_create_qam cfg bits_per_symbol
    | .MOD_APSK => modem_create_apsk cfg bits_per_symbol
    | .MOD_ARB => modem_create_arb cfg bits_per_symbol
    | .MOD_ARB_MIRRORED => modem_create_arb_mirrored cfg bits_per_symbol
    | .MOD_ARB_ROTATED => modem_create_arb_rotated cfg bits_per_symbol
    | .MOD_BPSK => modem_create_bpsk cfg
    | .MOD_QPSK => modem_create_qpsk cfg
    | .MOD_APSK16 => modem_create_apsk16 cfg bits_per_symbol
    | .MOD_APSK32 => modem_create_apsk32 cfg bits_per_symbol
    | .MOD_APSK64 => modem_create_apsk64 cfg bits_per_symbol
    | .unrecognized _ => .error .UnsupportedScheme

/-- What a loader call leaves behind: `err = none` for a normal return, otherwise the outcome that
stopped it; `mod` is the modem as the call left it; `warnings` counts the `WARNING` lines
printed. -/
structure LoadResult (F : Type) where
  err : Option ModemError
  mod : modem_s F
  warnings : Nat

/-- The store `symbol_map[i] = z`. -/
def symbol_map_store (sm : Option (List (Cplx F))) (i : Nat) (z : Cplx F) :
    Except ModemError (Option (List (Cplx F))) :=
  match sm with
  | none => .error .MemoryFault
  | some l => if i < l.length then .ok (some (l.set i z)) else .error .MemoryFault

/-- `cabsf`. -/
def cabsf (cfg : Config F) (z : Cplx F) : F := cfg.sqrtf (z.re * z.re + z.im * z.im)

/-- `modem_arb_scale`. -/
def modem_arb_scale (cfg : Config F) (mod : modem_s F) : Except ModemError (modem_s F) :=
  match mod.symbol_map with
  | none => if mod.M = 0 then .ok mod else .error .MemoryFault
  | some l =>
    if l.length < mod.M then .error .MemoryFault
    else
      let e : F := (l.take mod.M).foldl (fun e z => e + cabsf cfg z * cabsf cfg z) 0
      let e : F := cfg.sqrtf (e / (mod.M : F))
      .ok { mod with
        symbol_map := some ((l.take mod.M).map (fun z => ⟨z.re / e, z.im / e⟩) ++ l.drop mod.M) }

/-- `modem_arb_balance_iq`. The accumulator `mean` is a `float`: adding a complex point to it
keeps the real part of the sum. -/
def modem_arb_balance_iq (mod : modem_s F) : Except ModemError (modem_s F) :=
  match mod.symbol_map with
  | none => if mod.M = 0 then .ok mod else .error .MemoryFault
  | some l =>
    if l.length < mod.M then .error .MemoryFault
    else
      let mean : F := (l.take mod.M).foldl (fun mean z => mean + z.re) 0
      let mean : F := mean / (mod.M : F)
      .ok { mod with
        symbol_map := some ((l.take mod.M).map (fun z => ⟨z.re - mean, z.im⟩) ++ l.drop mod.M) }

/-- The tail shared by both loaders: balance when the scheme is `MOD_ARB`, then scale. -/
def arb_normalize (cfg : Config F) (mod : modem_s F) (warnings : Nat) : LoadResult F :=
  match (if mod.scheme = .MOD_ARB then modem_arb_balance_iq mod else .ok mod) with
  | .error e => ⟨some e, mod, warnings⟩
  | .ok mod1 =>
    match modem_arb_scale cfg mod1 with
    | .error e => ⟨some e, mod1, warnings⟩
    | .ok mod2 => ⟨none, mod2, warnings⟩

/-- The copy loop of `modem_arb_init`, from index `i` on. -/
def arb_init_copy (cfg : Config F) :
    List (Cplx F) → Nat → modem_s F → Nat → LoadResult F
  | [], _, mod, w => ⟨none, mod, w⟩
  | z :: zs, i, mod, w =>
    let w :=
      if cfg.LIQUID_VALIDATE_INPUT
          ∧ (mod.scheme = .MOD_ARB_MIRRORED ∨ mod.scheme = .MOD_ARB_ROTATED)
          ∧ (z.re ≤ 0 ∨ z.im ≤ 0) then w + 1 else w
    match symbol_map_store mod.symbol_map i z with
    | .error e => ⟨some e, mod, w⟩
    | .ok sm => arb_init_copy cfg zs (i + 1) { mod with symbol_map := sm } w

/-- `modem_arb_init`; `_len` is the length of the point list. -/
def modem_arb_init (cfg : Config F) (mod : modem_s F) (symbol_map : List (Cplx F)) :
    LoadResult F :=
  if cfg.LIQUID_VALIDATE_INPUT ∧ mod.scheme ≠ .MOD_ARB ∧ mod.scheme ≠ .MOD_ARB_MIRRORED
      ∧ mod.scheme ≠ .MOD_ARB_ROTATED then ⟨some .SchemeMismatch, mod, 0⟩
  else if cfg.LIQUID_VALIDATE_INPUT ∧ symbol_map.length ≠ mod.M then
    ⟨some .SizeMismatch, mod, 0⟩
  else
    let r := arb_init_copy cfg symbol_map 0 mod 0
    match r.err with
    | some _ => r
    | none => arb_normalize cfg r.mod r.warnings

/-- What `fscanf` meets in the source, past white space: a number or something that is not
one. -/
inductive Token (F : Type) where
  | num (x : F)
  | junk
  deriving Repr

/-- The call `results = fscanf(f, "%f %f\n", &sym_i, &sym_q)`: the value stored in the unsigned
`results`, the two locals and the rest of the source. At the end of the source `fscanf` returns
`EOF`, which is `-1`. -/
def fscanf_pair : List (Token F) → F → F → Nat × F × F × List (Token F)
  | [], sym_i, sym_q => (UINT_SIZE - 1, sym_i, sym_q, [])
  | .junk :: f, sym_i, sym_q => (0, sym_i, sym_q, .junk :: f)
  | [.num x], _, sym_q => (1, x, sym_q, [])
  | .num x :: .junk :: f, _, sym_q => (1, x, sym_q, .junk :: f)
  | .num x :: .num y :: f, _, _ => (2, x, y, f)

/-- The read loop of `modem_arb_init_file` with `n` iterations left, at index `i`. -/
def arb_init_file_loop (cfg : Config F) :
    Nat → Nat → List (Token F) → F → F → modem_s F → Nat → LoadResult F
  | 0, _, _, _, _, mod, w => ⟨none, mod, w⟩
  | n + 1, i, f, sym_i, sym_q, mod, w =>
    match fscanf_pair f sym_i sym_q with
    | (results, sym_i, sym_q, f) =>
      match symbol_map_store mod.symbol_map i ⟨sym_i, sym_q⟩ with
      | .error e => ⟨some e, mod, w⟩
      | .ok sm =>
        let mod := { mod with symbol_map := sm }
        if results < 2 then ⟨some .ParseError, mod, w⟩
        else
          let w :=
            if cfg.LIQUID_VALIDATE_INPUT
                ∧ (mod.scheme = .MOD_ARB_MIRRORED ∨ mod.scheme = .MOD_ARB_ROTATED)
                ∧ (sym_i < 0 ∨ sym_q < 0) then w + 1 else w
          arb_init_file_loop cfg n (i + 1) f sym_i sym_q mod w

/-- `modem_arb_init_file`. The source is `none` when `fopen` fails; `sym_i` and `sym_q` are what
the two uninitialised locals hold on entry. -/
def modem_arb_init_file (cfg : Config F) (mod : modem_s F) (source : Option (List (Token F)))
    (sym_i sym_q : F) : LoadResult F :=
  match source with
  | none => ⟨some .IOError, mod, 0⟩
  | some f =>
    let r := arb_init_file_loop cfg mod.M 0 f sym_i sym_q mod 0
    match r.err with
    | some _ => r
    | none => arb_normalize cfg r.mod r.warnings

/-- The divisor of `modem_arb_scale`: the value of `e` after `e = sqrtf( e / _mod->M )`, for a
`symbol_map` holding `l` and constellation size `M`. -/
def arb_scale_divisor (cfg : Config F) (l : List (Cplx F)) (M : Nat) : F :=
  cfg.sqrtf ((l.take M).foldl (fun e z => e + cabsf cfg z * cabsf cfg z) 0 / (M : F))

/-- The squared magnitude `|z|^2` of a complex value. -/
def Cplx.normSq (z : Cplx F) : F := z.re * z.re + z.im * z.im

/-- The average symbol energy `(1/M) * Σ |z|^2` of a point list. -/
def avg_energy (M : Nat) (l : List (Cplx F)) : F := 1 / (M : F) * (l.map Cplx.normSq).sum

/-- The mean `(1/M) * Σ z` of a point list, as a complex value. -/
def complex_mean (M : Nat) (l : List (Cplx F)) : Cplx F :=
  ⟨1 / (M : F) * (l.map Cplx.re).sum, 1 / (M : F) * (l.map Cplx.im).sum⟩

/-- The entry `ref[k]` of a reference table; a slot that was never written is read as `0`. -/
def ref_at (ref : List (Option F)) (k : Nat) : F :=
  match ref[k]? with
  | some (some x) => x
  | _ => 0

/-- The signed sum `Σ ±ref[k]` over `k < m`, with sign `+` where the pattern `s` is set at `k`
and `-` where it is not. -/
def signed_sum (ref : List (Option F)) (s : Nat → Bool) : Nat → F
  | 0 => 0
  | m + 1 => signed_sum ref s m + (if s m then ref_at ref m else -ref_at ref m)

/-- The source that holds exactly the given points, in order, one `real imaginary` pair per
entry. -/
def pairs_source : List (Cplx F) → List (Token F)
  | [] => []
  | z :: zs => .num z.re :: .num z.im :: pairs_source zs

/-- A configuration with at most eight bits per symbol and input validation compiled in, over
given values of `M_PI` and `sqrtf`; the tabulated scale factors are those that give the uniform
grids unit average energy. -/
def Config.eightBit (pi : F) (sqrt : F → F) : Config F :=
  { MAX_MOD_BITS_PER_SYMBOL := 8, LIQUID_VALIDATE_INPUT := true,
    M_PI := pi, sqrtf := sqrt,
    ASK2_ALPHA := 1, ASK4_ALPHA := 1 / sqrt 5, ASK8_ALPHA := 1 / sqrt 21,
    ASK16_ALPHA := 1 / sqrt 85, ASK32_ALPHA := 1 / sqrt 341,
    RQAM4_ALPHA := 1 / sqrt 2, RQAM8_ALPHA := 1 / sqrt 6, RQAM16_ALPHA := 1 / sqrt 10,
    RQAM32_ALPHA := 1 / sqrt 26, RQAM64_ALPHA := 1 / sqrt 42, RQAM128_ALPHA := 1 / sqrt 106,
    RQAM256_ALPHA := 1 / sqrt 170, RQAM512_ALPHA := 1 / sqrt 426,
    RQAM1024_ALPHA := 1 / sqrt 682, RQAM2048_ALPHA := 1 / sqrt 1706,
    RQAM4096_ALPHA := 1 / sqrt 2730 }

/-- A rational configuration for evaluating the definitions on concrete inputs: `Config.eightBit`
with rational stand-ins for `M_PI` and `sqrtf`. -/
def Config.sample : Config ℚ := Config.eightBit (355 / 113) (fun x => x)

/-! ## Auxiliary facts -/

theorem shl32_one (k : Nat) (h : k < 32) : shl32 1 k = 2 ^ k := by
  unfold shl32 UINT_SIZE
  rw [Nat.one_shiftLeft]
  apply Nat.mod_eq_of_lt
  calc 2 ^ k < 2 ^ 32 := Nat.pow_lt_pow_right (by norm_num) h
    _ = 4294967296 := by norm_num

theorem modem_init_ok (cfg : Config F) (mod : modem_s F) (b : Nat) (h1 : 1 ≤ b)
    (h2 : b ≤ cfg.MAX_MOD_BITS_PER_SYMBOL) :
    modem_init cfg mod b = .ok { mod with
      m := b, M := shl32 1 b, m_i := 0, M_i := 0, m_q := 0, M_q := 0,
      alpha := 0, symbol_map := none,
      state := Cplx.ofReal 0, state_theta := 0, res := Cplx.ofReal 0,
      phase_error := 0, evm := 0, d_phi := 0,
      modulate_func := none, demodulate_func := none } := by
  have h1' : ¬ b < 1 := by omega
  have h2' : ¬ b > cfg.MAX_MOD_BITS_PER_SYMBOL := by omega
  simp [modem_init, h1', h2']

theorem modem_init_width (cfg : Config F) (mod : modem_s F) (b : Nat)
    (h : b = 0 ∨ cfg.MAX_MOD_BITS_PER_SYMBOL < b) :
    modem_init cfg mod b = .error .InvalidConfig := by
  unfold modem_init
  rcases h with h | h
  · simp [h]
  · by_cases h0 : b < 1
    · simp [h0]
    · simp [h0, h]

theorem bind_ne_error {α β : Type} (x : Except ModemError α) (f : α → Except ModemError β)
    (e : ModemError) (hx : x ≠ .error e) (hf : ∀ a, f a ≠ .error e) : (x >>= f) ≠ .error e := by
  cases x with
  | error e' => simpa [bind, Except.bind] using hx
  | ok a => exact hf a

theorem ite_ne_error {α : Type} {c : Prop} [Decidable c] {x y e : Except ModemError α}
    (hx : x ≠ e) (hy : y ≠ e) : (if c then x else y) ≠ e := by
  split <;> assumption

theorem ok_ne_error {α : Type} (a : α) (e : ModemError) :
    (Except.ok a : Except ModemError α) ≠ .error e :=
  fun h => Except.noConfusion h

theorem invalid_ne_unsupported {α : Type} :
    (Except.error .InvalidConfig : Except ModemError α) ≠ .error .UnsupportedScheme :=
  fun h => Except.noConfusion h (fun h => ModemError.noConfusion h)

theorem assert_ne_unsupported {α : Type} :
    (Except.error .AssertFailed : Except ModemError α) ≠ .error .UnsupportedScheme :=
  fun h => Except.noConfusion h (fun h => ModemError.noConfusion h)

theorem modem_init_ne_unsupported (cfg : Config F) (mod : modem_s F) (b : Nat) :
    modem_init cfg mod b ≠ .error .UnsupportedScheme :=
  ite_ne_error invalid_ne_unsupported (ite_ne_error invalid_ne_unsupported (ok_ne_error _ _))

theorem modem_create_qam_ne_unsupported (cfg : Config F) (b : Nat) :
    modem_create_qam cfg b ≠ .error .UnsupportedScheme :=
  ite_ne_error invalid_ne_unsupported
    (bind_ne_error _ _ _ (modem_init_ne_unsupported _ _ _) fun _ =>
      ite_ne_error assert_ne_unsupported (ite_ne_error assert_ne_unsupported (ok_ne_error _ _)))

theorem modem_create_psk_ne_unsupported (cfg : Config F) (b : Nat) :
    modem_create_psk cfg b ≠ .error .UnsupportedScheme :=
  bind_ne_error _ _ _ (modem_init_ne_unsupported _ _ _) fun _ => ok_ne_error _ _

theorem modem_create_dpsk_ne_unsupported (cfg : Config F) (b : Nat) :
    modem_create_dpsk cfg b ≠ .error .UnsupportedScheme :=
  bind_ne_error _ _ _ (modem_init_ne_unsupported _ _ _) fun _ => ok_ne_error _ _

theorem modem_create_ask_ne_unsupported (cfg : Config F) (b : Nat) :
    modem_create_ask cfg b ≠ .error .UnsupportedScheme :=
  bind_ne_error _ _ _ (modem_init_ne_unsupported _ _ _) fun _ => ok_ne_error _ _

theorem modem_create_bpsk_ne_unsupported (cfg : Config F) :
    modem_create_bpsk cfg ≠ .error .UnsupportedScheme :=
  bind_ne_error _ _ _ (modem_init_ne_unsupported _ _ _) fun _ => ok_ne_error _ _

theorem modem_create_qpsk_ne_unsupported (cfg : Config F) :
    modem_create_qpsk cfg ≠ .error .UnsupportedScheme :=
  bind_ne_error _ _ _ (modem_init_ne_unsupported _ _ _) fun _ => ok_ne_error _ _

theorem modem_create_arb_ne_unsupported (cfg : Config F) (b : Nat) :
    modem_create_arb cfg b ≠ .error .UnsupportedScheme :=
  bind_ne_error _ _ _ (modem_init_ne_unsupported _ _ _) fun _ => ok_ne_error _ _

theorem modem_create_arb_mirrored_ne_unsupported (cfg : Config F) (b : Nat) :
    modem_create_arb_mirrored cfg b ≠ .error .UnsupportedScheme :=
  bind_ne_error _ _ _ (modem_init_ne_unsupported _ _ _) fun _ => ok_ne_error _ _

theorem modem_create_arb_rotated_ne_unsupported (cfg : Config F) (b : Nat) :
    modem_create_arb_rotated cfg b ≠ .error .UnsupportedScheme :=
  bind_ne_error _ _ _ (modem_init_ne_unsupported _ _ _) fun _ => ok_ne_error _ _

theorem modem_create_apsk16_ne_unsupported (cfg : Config F) (b : Nat) :
    modem_create_apsk16 cfg b ≠ .error .UnsupportedScheme :=
  ite_ne_error invalid_ne_unsupported
    (bind_ne_error _ _ _ (modem_init_ne_unsupported _ _ _) fun _ => ok_ne_error _ _)

theorem modem_create_apsk32_ne_unsupported (cfg : Config F) (b : Nat) :
    modem_create_apsk32 cfg b ≠ .error .UnsupportedScheme :=
  ite_ne_error invalid_ne_unsupported
    (bind_ne_error _ _ _ (modem_init_ne_unsupported _ _ _) fun _ => ok_ne_error _ _)

theorem modem_create_apsk64_ne_unsupported (cfg : Config F) (b : Nat) :
    modem_create_apsk64 cfg b ≠ .error .UnsupportedScheme :=
  ite_ne_error invalid_ne_unsupported
    (bind_ne_error _ _ _ (modem_init_ne_unsupported _ _ _) fun _ => ok_ne_error _ _)

theorem modem_create_apsk_ne_unsupported (cfg : Config F) (b : Nat) :
    modem_create_apsk cfg b ≠ .error .UnsupportedScheme :=
  ite_ne_error (modem_create_apsk16_ne_unsupported _ _)
    (ite_ne_error (modem_create_apsk32_ne_unsupported _ _)
      (ite_ne_error (modem_create_apsk64_ne_unsupported _ _) invalid_ne_unsupported))


/-! ## What each constructor returns -/

theorem modem_create_psk_eq (cfg : Config F) (b : Nat) (h1 : 1 ≤ b)
    (h2 : b ≤ cfg.MAX_MOD_BITS_PER_SYMBOL) :
    modem_create_psk cfg b = .ok { modem_alloc cfg .MOD_PSK with
      m := b, M := shl32 1 b, alpha := cfg.M_PI / (shl32 1 b : Nat),
      ref := build_ref b (cfg.M_PI / (shl32 1 b : Nat))
        (List.replicate cfg.MAX_MOD_BITS_PER_SYMBOL none),
      d_phi := cfg.M_PI * (1 - 1 / (shl32 1 b : Nat)),
      modulate_func := some .psk, demodulate_func := some .psk } := by
  simp [modem_create_psk, modem_init_ok cfg _ b h1 h2, bind, Except.bind, modem_alloc]

theorem modem_create_dpsk_eq (cfg : Config F) (b : Nat) (h1 : 1 ≤ b)
    (h2 : b ≤ cfg.MAX_MOD_BITS_PER_SYMBOL) :
    modem_create_dpsk cfg b = .ok { modem_alloc cfg .MOD_DPSK with
      m := b, M := shl32 1 b, alpha := cfg.M_PI / (shl32 1 b : Nat),
      ref := build_ref b (cfg.M_PI / (shl32 1 b : Nat))
        (List.replicate cfg.MAX_MOD_BITS_PER_SYMBOL none),
      d_phi := cfg.M_PI * (1 - 1 / (shl32 1 b : Nat)),
      state := Cplx.ofReal 1, state_theta := 0,
      modulate_func := some .dpsk, demodulate_func := some .dpsk } := by
  simp [modem_create_dpsk, modem_init_ok cfg _ b h1 h2, bind, Except.bind, modem_alloc]

theorem modem_create_ask_eq (cfg : Config F) (b : Nat) (h1 : 1 ≤ b)
    (h2 : b ≤ cfg.MAX_MOD_BITS_PER_SYMBOL) :
    ∃ alpha : F, modem_create_ask cfg b = .ok { modem_alloc cfg .MOD_ASK with
      m := b, M := shl32 1 b, m_i := b, M_i := shl32 1 b, alpha := alpha,
      ref := build_ref b alpha (List.replicate cfg.MAX_MOD_BITS_PER_SYMBOL none),
      modulate_func := some .ask, demodulate_func := some .ask } := by
  refine ⟨if shl32 1 b = 2 then cfg.ASK2_ALPHA
    else if shl32 1 b = 4 then cfg.ASK4_ALPHA
    else if shl32 1 b = 8 then cfg.ASK8_ALPHA
    else if shl32 1 b = 16 then cfg.ASK16_ALPHA
    else if shl32 1 b = 32 then cfg.ASK32_ALPHA
    else cfg.sqrtf 3 / (shl32 1 b : Nat), ?_⟩
  simp [modem_create_ask, modem_init_ok cfg _ b h1 h2, bind, Except.bind, modem_alloc]

theorem modem_create_bpsk_eq (cfg : Config F) (h2 : 1 ≤ cfg.MAX_MOD_BITS_PER_SYMBOL) :
    modem_create_bpsk cfg = .ok { modem_alloc cfg .MOD_BPSK with
      m := 1, M := shl32 1 1, modulate_func := some .bpsk, demodulate_func := some .bpsk } := by
  simp [modem_create_bpsk, modem_init_ok cfg _ 1 (le_refl 1) h2, bind, Except.bind, modem_alloc]

theorem modem_create_qpsk_eq (cfg : Config F) (h2 : 2 ≤ cfg.MAX_MOD_BITS_PER_SYMBOL) :
    modem_create_qpsk cfg = .ok { modem_alloc cfg .MOD_QPSK with
      m := 2, M := shl32 1 2, modulate_func := some .qpsk, demodulate_func := some .qpsk } := by
  simp [modem_create_qpsk, modem_init_ok cfg _ 2 (by decide) h2, bind, Except.bind, modem_alloc]

theorem modem_create_apsk16_eq (cfg : Config F) (h2 : 4 ≤ cfg.MAX_MOD_BITS_PER_SYMBOL) :
    modem_create_apsk16 cfg 4 = .ok { modem_alloc cfg .MOD_APSK16 with
      m := 4, M := shl32 1 4, apsk := some .apsk16,
      modulate_func := some .apsk, demodulate_func := some .apsk } := by
  simp [modem_create_apsk16, modem_init_ok cfg _ 4 (by decide) h2, bind, Except.bind, modem_alloc]

theorem modem_create_apsk32_eq (cfg : Config F) (h2 : 5 ≤ cfg.MAX_MOD_BITS_PER_SYMBOL) :
    modem_create_apsk32 cfg 5 = .ok { modem_alloc cfg .MOD_APSK32 with
      m := 5, M := shl32 1 5, apsk := some .apsk32,
      modulate_func := some .apsk, demodulate_func := some .apsk } := by
  simp [modem_create_apsk32, modem_init_ok cfg _ 5 (by decide) h2, bind, Except.bind, modem_alloc]

theorem modem_create_apsk64_eq (cfg : Config F) (h2 : 6 ≤ cfg.MAX_MOD_BITS_PER_SYMBOL) :
    modem_create_apsk64 cfg 6 = .ok { modem_alloc cfg .MOD_APSK64 with
      m := 6, M := shl32 1 6, apsk := some .apsk64,
      modulate_func := some .apsk, demodulate_func := some .apsk } := by
  simp [modem_create_apsk64, modem_init_ok cfg _ 6 (by decide) h2, bind, Except.bind, modem_alloc]

theorem modem_create_arb_eq (cfg : Config F) (b : Nat) (h1 : 1 ≤ b)
    (h2 : b ≤ cfg.MAX_MOD_BITS_PER_SYMBOL) :
    modem_create_arb cfg b = .ok { modem_alloc cfg .MOD_ARB with
      m := b, M := shl32 1 b, symbol_map := calloc_symbol_map (shl32 1 b),
      modulate_func := some .arb, demodulate_func := some .arb } := by
  simp [modem_create_arb, modem_init_ok cfg _ b h1 h2, bind, Except.bind, modem_alloc]

theorem modem_create_arb_mirrored_eq (cfg : Config F) (b : Nat) (h1 : 1 ≤ b)
    (h2 : b ≤ cfg.MAX_MOD_BITS_PER_SYMBOL) :
    modem_create_arb_mirrored cfg b = .ok { modem_alloc cfg .MOD_ARB_MIRRORED with
      m := b, M := shl32 1 b >>> 2, symbol_map := calloc_symbol_map (shl32 1 b >>> 2),
      modulate_func := some .arb, demodulate_func := some .arb } := by
  simp [modem_create_arb_mirrored, modem_init_ok cfg _ b h1 h2, bind, Except.bind, modem_alloc]

theorem modem_create_arb_rotated_eq (cfg : Config F) (b : Nat) (h1 : 1 ≤ b)
    (h2 : b ≤ cfg.MAX_MOD_BITS_PER_SYMBOL) :
    modem_create_arb_rotated cfg b = .ok { modem_alloc cfg .MOD_ARB_ROTATED with
      m := b, M := shl32 1 b >>> 2, symbol_map := calloc_symbol_map (shl32 1 b >>> 2),
      modulate_func := some .arb, demodulate_func := some .arb } := by
  simp [modem_create_arb_rotated, modem_init_ok cfg _ b h1 h2, bind, Except.bind, modem_alloc]

theorem bind_init_width {cfg : Config F} {mod0 : modem_s F} {b : Nat}
    (f : modem_s F → Except ModemError (modem_s F))
    (h : b = 0 ∨ cfg.MAX_MOD_BITS_PER_SYMBOL < b) :
    (modem_init cfg mod0 b >>= f) = .error .InvalidConfig := by
  rw [modem_init_width cfg mod0 b h]; rfl

theorem modem_create_bpsk_width (cfg : Config F) (h : cfg.MAX_MOD_BITS_PER_SYMBOL < 1) :
    modem_create_bpsk cfg = .error .InvalidConfig := bind_init_width _ (Or.inr h)

theorem modem_create_qpsk_width (cfg : Config F) (h : cfg.MAX_MOD_BITS_PER_SYMBOL < 2) :
    modem_create_qpsk cfg = .error .InvalidConfig := bind_init_width _ (Or.inr h)

theorem modem_create_apsk16_ne (cfg : Config F) (b : Nat) (h : b ≠ 4) :
    modem_create_apsk16 cfg b = .error .InvalidConfig := by
  simp [modem_create_apsk16, h]

theorem modem_create_apsk32_ne (cfg : Config F) (b : Nat) (h : b ≠ 5) :
    modem_create_apsk32 cfg b = .error .InvalidConfig := by
  simp [modem_create_apsk32, h]

theorem modem_create_apsk64_ne (cfg : Config F) (b : Nat) (h : b ≠ 6) :
    modem_create_apsk64 cfg b = .error .InvalidConfig := by
  simp [modem_create_apsk64, h]

theorem modem_create_in_range (cfg : Config F) (scheme : modulation_scheme) (b : Nat)
    (mod : modem_s F) (h : modem_create cfg scheme b = .ok mod) :
    1 ≤ b ∧ b ≤ cfg.MAX_MOD_BITS_PER_SYMBOL := by
  by_contra hc
  have hw : b = 0 ∨ cfg.MAX_MOD_BITS_PER_SYMBOL < b := by omega
  have : modem_create cfg scheme b = .error .InvalidConfig := by
    unfold modem_create
    rcases hw with h0 | h0
    · simp [h0]
    · by_cases h1 : b < 1
      · simp [h1]
      · simp [h1, h0]
  rw [this] at h
  cases h

theorem modem_create_dispatch (cfg : Config F) (scheme : modulation_scheme) (b : Nat)
    (h1 : 1 ≤ b) (h2 : b ≤ cfg.MAX_MOD_BITS_PER_SYMBOL) :
    modem_create cfg scheme b =
      match scheme with
      | .MOD_PSK => modem_create_psk cfg b
      | .MOD_DPSK => modem_create_dpsk cfg b
      | .MOD_ASK => modem_create_ask cfg b
      | .MOD_QAM => modem_create_qam cfg b
      | .MOD_APSK => modem_create_apsk cfg b
      | .MOD_ARB => modem_create_arb cfg b
      | .MOD_ARB_MIRRORED => modem_create_arb_mirrored cfg b
      | .MOD_ARB_ROTATED => modem_create_arb_rotated cfg b
      | .MOD_BPSK => modem_create_bpsk cfg
      | .MOD_QPSK => modem_create_qpsk cfg
      | .MOD_APSK16 => modem_create_apsk16 cfg b
      | .MOD_APSK32 => modem_create_apsk32 cfg b
      | .MOD_APSK64 => modem_create_apsk64 cfg b
      | .unrecognized _ => .error .UnsupportedScheme := by
  have h1' : ¬ b < 1 := by omega
  have h2' : ¬ b > cfg.MAX_MOD_BITS_PER_SYMBOL := by omega
  cases scheme <;> simp [modem_create, h1', h2']

/-! ## Width and scheme checks of `modem_create` -/

/-- C1: whatever the scheme tag, a width that is `0` or greater than `MAX_MOD_BITS_PER_SYMBOL`
makes `modem_create` fail with `InvalidConfig` (no modem is returned), and `modem_create_qam`
called directly with width `0` fails with `InvalidConfig` too. -/
theorem modem_create_width_out_of_range (cfg : Config F) (scheme : modulation_scheme) (b : Nat)
    (h : b = 0 ∨ cfg.MAX_MOD_BITS_PER_SYMBOL < b) :
    modem_create cfg scheme b = .error .InvalidConfig
      ∧ modem_create_qam cfg 0 = .error .InvalidConfig := by
  refine ⟨?_, by simp [modem_create_qam]⟩
  unfold modem_create
  rcases h with h | h
  · simp [h]
  · by_cases h0 : b < 1
    · simp [h0]
    · simp [h0, h]

theorem modem_create_width_out_of_range_witness :
    (9 = 0 ∨ Config.sample.MAX_MOD_BITS_PER_SYMBOL < 9)
      ∧ modem_create Config.sample (.unrecognized 77) 9 = .error .InvalidConfig
      ∧ modem_create_qam Config.sample 0 = .error .InvalidConfig :=
  ⟨Or.inr (by decide),
    modem_create_width_out_of_range Config.sample (.unrecognized 77) 9 (Or.inr (by decide))⟩
/-- C2: for a width in `[1, MAX_MOD_BITS_PER_SYMBOL]`, `modem_create` fails with
`UnsupportedScheme` exactly when the scheme is none of the thirteen recognized tags. -/
theorem modem_create_unsupported_iff (cfg : Config F) (scheme : modulation_scheme) (b : Nat)
    (h1 : 1 ≤ b) (h2 : b ≤ cfg.MAX_MOD_BITS_PER_SYMBOL) :
    modem_create cfg scheme b = .error .UnsupportedScheme ↔
      scheme ∉ [modulation_scheme.MOD_PSK, .MOD_DPSK, .MOD_ASK, .MOD_QAM, .MOD_APSK, .MOD_ARB,
        .MOD_ARB_MIRRORED, .MOD_ARB_ROTATED, .MOD_BPSK, .MOD_QPSK, .MOD_APSK16, .MOD_APSK32,
        .MOD_APSK64] := by
  have h1' : ¬ b < 1 := by omega
  have h2' : ¬ b > cfg.MAX_MOD_BITS_PER_SYMBOL := by omega
  cases scheme <;>
    simp [modem_create, h1', h2', modem_create_qam_ne_unsupported,
      modem_create_psk_ne_unsupported, modem_create_dpsk_ne_unsupported,
      modem_create_ask_ne_unsupported, modem_create_bpsk_ne_unsupported,
      modem_create_qpsk_ne_unsupported, modem_create_arb_ne_unsupported,
      modem_create_arb_mirrored_ne_unsupported, modem_create_arb_rotated_ne_unsupported,
      modem_create_apsk16_ne_unsupported, modem_create_apsk32_ne_unsupported,
      modem_create_apsk64_ne_unsupported, modem_create_apsk_ne_unsupported]

theorem modem_create_unsupported_iff_witness :
    (1 ≤ 3 ∧ 3 ≤ Config.sample.MAX_MOD_BITS_PER_SYMBOL)
      ∧ modem_create Config.sample (.unrecognized 0) 3 = .error .UnsupportedScheme :=
  ⟨⟨by decide, by decide⟩,
    (modem_create_unsupported_iff Config.sample (.unrecognized 0) 3 (by decide) (by decide)).2
      (by decide)⟩

/-! ## Derived parameters: constellation size, quadrature split, reference table -/

theorem qam_split_eq (b : Nat) (h1 : 1 ≤ b) (h2 : b < 32) :
    (if b % 2 = 1 then (((b + 1) % UINT_SIZE) >>> 1, (sub32 b 1) >>> 1) else (b >>> 1, b >>> 1))
      = ((b + 1) / 2, b / 2) := by
  simp only [Nat.shiftRight_eq_div_pow, sub32, UINT_SIZE]
  split
  · have e1 : (b + 1) % 4294967296 = b + 1 := Nat.mod_eq_of_lt (by omega)
    have e2 : (b + 4294967296 - 1 % 4294967296) % 4294967296 = b - 1 := by omega
    rw [e1, e2]
    ext
    · simp only [pow_one]
    · simp only [pow_one]; omega
  · ext
    · simp only [pow_one]; omega
    · simp only [pow_one]

theorem qam_sizes (b : Nat) (h2 : b < 32) :
    mul32 (shl32 1 ((b + 1) / 2)) (shl32 1 (b / 2)) = shl32 1 b := by
  rw [shl32_one _ (by omega), shl32_one _ (by omega), shl32_one _ h2, mul32, ← pow_add]
  have e : (b + 1) / 2 + b / 2 = b := by omega
  rw [e, ← shl32_one b h2]
  unfold shl32
  exact Nat.mod_mod _ _

theorem modem_create_qam_eq (cfg : Config F) (b : Nat) (h1 : 1 ≤ b)
    (h2 : b ≤ cfg.MAX_MOD_BITS_PER_SYMBOL) (h3 : b < 32) :
    ∃ alpha : F, modem_create_qam cfg b = .ok { modem_alloc cfg .MOD_QAM with
      m := b, M := shl32 1 b, m_i := (b + 1) / 2, m_q := b / 2,
      M_i := shl32 1 ((b + 1) / 2), M_q := shl32 1 (b / 2), alpha := alpha,
      ref := build_ref b alpha (List.replicate cfg.MAX_MOD_BITS_PER_SYMBOL none),
      modulate_func := some .qam, demodulate_func := some .qam } := by
  have h1' : ¬ b < 1 := by omega
  have e : ((b + 1) / 2 + b / 2) % UINT_SIZE = b := by unfold UINT_SIZE; omega
  refine ⟨if shl32 1 b = 4 then cfg.RQAM4_ALPHA
        else if shl32 1 b = 8 then cfg.RQAM8_ALPHA
        else if shl32 1 b = 16 then cfg.RQAM16_ALPHA
        else if shl32 1 b = 32 then cfg.RQAM32_ALPHA
        else if shl32 1 b = 64 then cfg.RQAM64_ALPHA
        else if shl32 1 b = 128 then cfg.RQAM128_ALPHA
        else if shl32 1 b = 256 then cfg.RQAM256_ALPHA
        else if shl32 1 b = 512 then cfg.RQAM512_ALPHA
        else if shl32 1 b = 1024 then cfg.RQAM1024_ALPHA
        else if shl32 1 b = 2048 then cfg.RQAM2048_ALPHA
        else if shl32 1 b = 4096 then cfg.RQAM4096_ALPHA
        else cfg.sqrtf (2 / (shl32 1 b : Nat)), ?_⟩
  simp [modem_create_qam, modem_init_ok cfg _ b h1 h2, bind, Except.bind, modem_alloc, h1',
    qam_split_eq b h1 h3, qam_sizes b h3, e]

theorem build_ref_succ (m : Nat) (alpha : F) (ref : List (Option F)) :
    build_ref (m + 1) alpha ref
      = (build_ref m alpha ref).set m (some ((shl32 1 m : Nat) * alpha)) := by
  simp [build_ref, List.range_succ, List.foldl_append]

theorem build_ref_length (m : Nat) (alpha : F) (ref : List (Option F)) :
    (build_ref m alpha ref).length = ref.length := by
  induction m with
  | zero => simp [build_ref]
  | succ n ih => rw [build_ref_succ, List.length_set, ih]

theorem build_ref_get (m : Nat) (alpha : F) (ref : List (Option F)) (k : Nat) (hk : k < m)
    (hm : m ≤ ref.length) :
    (build_ref m alpha ref)[k]? = some (some ((shl32 1 k : Nat) * alpha)) := by
  induction m with
  | zero => omega
  | succ n ih =>
    rw [build_ref_succ]
    by_cases hkn : k = n
    · subst hkn
      rw [List.getElem?_set_self (by rw [build_ref_length]; omega)]
    · rw [List.getElem?_set_ne (fun h => hkn h.symm)]
      exact ih (by omega) (by omega)


theorem modem_create_apsk_inv (cfg : Config F) (b : Nat) (mod : modem_s F)
    (h : modem_create_apsk cfg b = .ok mod) :
    (b = 4 ∧ modem_create_apsk16 cfg 4 = .ok mod) ∨ (b = 5 ∧ modem_create_apsk32 cfg 5 = .ok mod)
      ∨ (b = 6 ∧ modem_create_apsk64 cfg 6 = .ok mod) := by
  unfold modem_create_apsk at h
  by_cases h4 : b = 4
  · subst h4; simpa using h
  · by_cases h5 : b = 5
    · subst h5; simpa using h
    · by_cases h6 : b = 6
      · subst h6; simpa using h
      · simp [h4, h5, h6] at h

theorem modem_create_apsk16_inv (cfg : Config F) (b : Nat) (mod : modem_s F)
    (h : modem_create_apsk16 cfg b = .ok mod) :
    b = 4 ∧ 4 ≤ cfg.MAX_MOD_BITS_PER_SYMBOL := by
  by_cases h4 : b = 4
  · refine ⟨h4, ?_⟩
    by_contra hc
    rw [modem_create_apsk16] at h
    simp only [h4, ne_eq, not_true_eq_false, if_false] at h
    rw [bind_init_width _ (Or.inr (by omega))] at h
    cases h
  · rw [modem_create_apsk16_ne cfg b h4] at h; cases h

theorem modem_create_apsk32_inv (cfg : Config F) (b : Nat) (mod : modem_s F)
    (h : modem_create_apsk32 cfg b = .ok mod) :
    b = 5 ∧ 5 ≤ cfg.MAX_MOD_BITS_PER_SYMBOL := by
  by_cases h4 : b = 5
  · refine ⟨h4, ?_⟩
    by_contra hc
    rw [modem_create_apsk32] at h
    simp only [h4, ne_eq, not_true_eq_false, if_false] at h
    rw [bind_init_width _ (Or.inr (by omega))] at h
    cases h
  · rw [modem_create_apsk32_ne cfg b h4] at h; cases h

theorem modem_create_apsk64_inv (cfg : Config F) (b : Nat) (mod : modem_s F)
    (h : modem_create_apsk64 cfg b = .ok mod) :
    b = 6 ∧ 6 ≤ cfg.MAX_MOD_BITS_PER_SYMBOL := by
  by_cases h4 : b = 6
  · refine ⟨h4, ?_⟩
    by_contra hc
    rw [modem_create_apsk64] at h
    simp only [h4, ne_eq, not_true_eq_false, if_false] at h
    rw [bind_init_width _ (Or.inr (by omega))] at h
    cases h
  · rw [modem_create_apsk64_ne cfg b h4] at h; cases h

theorem modem_create_qpsk_inv (cfg : Config F) (mod : modem_s F)
    (h : modem_create_qpsk cfg = .ok mod) : 2 ≤ cfg.MAX_MOD_BITS_PER_SYMBOL := by
  by_contra hc
  rw [modem_create_qpsk_width cfg (by omega)] at h
  cases h

/-- C3: a modem returned by `modem_create` has `M = 2 ^ m` for its own width `m`, unless the
scheme is `MOD_ARB_MIRRORED` or `MOD_ARB_ROTATED`; for these two, created with width `b`, the
modem has `m = b` and `M = 2 ^ b / 4` (the unsigned quotient). The width ceiling is below the
word size. -/
theorem modem_create_constellation_size (cfg : Config F) (scheme : modulation_scheme) (b : Nat)
    (mod : modem_s F) (hmax : cfg.MAX_MOD_BITS_PER_SYMBOL < 32)
    (h : modem_create cfg scheme b = .ok mod) :
    (scheme ≠ .MOD_ARB_MIRRORED → scheme ≠ .MOD_ARB_ROTATED → mod.M = 2 ^ mod.m)
      ∧ (scheme = .MOD_ARB_MIRRORED ∨ scheme = .MOD_ARB_ROTATED →
          mod.m = b ∧ mod.M = 2 ^ b / 4) := by
  obtain ⟨h1, h2⟩ := modem_create_in_range cfg scheme b mod h
  have hb : b < 32 := by omega
  rw [modem_create_dispatch cfg scheme b h1 h2] at h
  cases scheme <;> simp only at h
  case MOD_PSK =>
    rw [modem_create_psk_eq cfg b h1 h2] at h
    cases h
    simp [shl32_one b hb]
  case MOD_DPSK =>
    rw [modem_create_dpsk_eq cfg b h1 h2] at h
    cases h
    simp [shl32_one b hb]
  case MOD_ASK =>
    obtain ⟨alpha, e⟩ := modem_create_ask_eq cfg b h1 h2
    rw [e] at h
    cases h
    simp [shl32_one b hb]
  case MOD_QAM =>
    obtain ⟨alpha, e⟩ := modem_create_qam_eq cfg b h1 h2 hb
    rw [e] at h
    cases h
    simp [shl32_one b hb]
  case MOD_APSK =>
    rcases modem_create_apsk_inv cfg b mod h with ⟨_, e⟩ | ⟨_, e⟩ | ⟨_, e⟩
    · rw [modem_create_apsk16_eq cfg (modem_create_apsk16_inv cfg 4 mod e).2] at e
      cases e
      simp [shl32_one 4 (by decide)]
    · rw [modem_create_apsk32_eq cfg (modem_create_apsk32_inv cfg 5 mod e).2] at e
      cases e
      simp [shl32_one 5 (by decide)]
    · rw [modem_create_apsk64_eq cfg (modem_create_apsk64_inv cfg 6 mod e).2] at e
      cases e
      simp [shl32_one 6 (by decide)]
  case MOD_ARB =>
    rw [modem_create_arb_eq cfg b h1 h2] at h
    cases h
    simp [shl32_one b hb]
  case MOD_ARB_MIRRORED =>
    rw [modem_create_arb_mirrored_eq cfg b h1 h2] at h
    cases h
    simp [shl32_one b hb, Nat.shiftRight_eq_div_pow]
  case MOD_ARB_ROTATED =>
    rw [modem_create_arb_rotated_eq cfg b h1 h2] at h
    cases h
    simp [shl32_one b hb, Nat.shiftRight_eq_div_pow]
  case MOD_BPSK =>
    rw [modem_create_bpsk_eq cfg (by omega)] at h
    cases h
    simp [shl32_one 1 (by decide)]
  case MOD_QPSK =>
    rw [modem_create_qpsk_eq cfg (modem_create_qpsk_inv cfg mod h)] at h
    cases h
    simp [shl32_one 2 (by decide)]
  case MOD_APSK16 =>
    obtain ⟨e4, e⟩ := modem_create_apsk16_inv cfg b mod h
    subst e4
    rw [modem_create_apsk16_eq cfg e] at h
    cases h
    simp [shl32_one 4 (by decide)]
  case MOD_APSK32 =>
    obtain ⟨e4, e⟩ := modem_create_apsk32_inv cfg b mod h
    subst e4
    rw [modem_create_apsk32_eq cfg e] at h
    cases h
    simp [shl32_one 5 (by decide)]
  case MOD_APSK64 =>
    obtain ⟨e4, e⟩ := modem_create_apsk64_inv cfg b mod h
    subst e4
    rw [modem_create_apsk64_eq cfg e] at h
    cases h
    simp [shl32_one 6 (by decide)]
  case unrecognized => cases h

theorem modem_create_constellation_size_witness :
    ∃ mod : modem_s ℚ, Config.sample.MAX_MOD_BITS_PER_SYMBOL < 32
      ∧ modem_create Config.sample .MOD_ARB_MIRRORED 5 = .ok mod
      ∧ mod.m = 5 ∧ mod.M = 2 ^ 5 / 4 :=
  ⟨_, by decide, modem_create_arb_mirrored_eq Config.sample 5 (by decide) (by decide),
    (modem_create_constellation_size Config.sample .MOD_ARB_MIRRORED 5 _ (by decide)
      (modem_create_arb_mirrored_eq Config.sample 5 (by decide) (by decide))).2 (Or.inl rfl)⟩

theorem ceil_half_odd (m : Nat) (h : m % 2 = 1) : ⌈(m : ℚ) / 2⌉₊ = (m + 1) / 2 := by
  obtain ⟨k, rfl⟩ : ∃ k, m = 2 * k + 1 := ⟨m / 2, by omega⟩
  have e : (2 * k + 1 + 1) / 2 = k + 1 := by omega
  rw [e, Nat.ceil_eq_iff (by omega)]
  constructor
  · push_cast
    linarith
  · push_cast
    linarith

theorem floor_half (m : Nat) : ⌊(m : ℚ) / 2⌋₊ = m / 2 := by
  have := Nat.floor_div_eq_div (α := ℚ) m 2
  simpa using this

/-- C4: for `m` in `[1, MAX_MOD_BITS_PER_SYMBOL]`, `modem_create` with `MOD_QAM` returns a modem
with `m_i = m_q = m / 2` when `m` is even, `m_i = ⌈m / 2⌉` and `m_q = ⌊m / 2⌋` when `m` is odd,
and `M_i = 2 ^ m_i`, `M_q = 2 ^ m_q`; width 4 gives `m_i = m_q = 2`, `M_i = M_q = 4`, `M = 16`,
and width 5 gives `m_i = 3`, `m_q = 2`, `M_i = 8`, `M_q = 4`, `M = 32`. The width ceiling is
below the word size. -/
theorem modem_create_qam_split (cfg : Config F) (m : Nat) (h1 : 1 ≤ m)
    (h2 : m ≤ cfg.MAX_MOD_BITS_PER_SYMBOL) (hmax : cfg.MAX_MOD_BITS_PER_SYMBOL < 32) :
    ∃ mod : modem_s F, modem_create cfg .MOD_QAM m = .ok mod
      ∧ mod.m = m
      ∧ (m % 2 = 0 → mod.m_i = m / 2 ∧ mod.m_q = m / 2)
      ∧ (m % 2 = 1 → mod.m_i = ⌈(m : ℚ) / 2⌉₊ ∧ mod.m_q = ⌊(m : ℚ) / 2⌋₊)
      ∧ mod.M_i = 2 ^ mod.m_i ∧ mod.M_q = 2 ^ mod.m_q
      ∧ (m = 4 → mod.m_i = 2 ∧ mod.m_q = 2 ∧ mod.M_i = 4 ∧ mod.M_q = 4 ∧ mod.M = 16)
      ∧ (m = 5 → mod.m_i = 3 ∧ mod.m_q = 2 ∧ mod.M_i = 8 ∧ mod.M_q = 4 ∧ mod.M = 32) := by
  have hb : m < 32 := by omega
  obtain ⟨alpha, e⟩ := modem_create_qam_eq cfg m h1 h2 hb
  rw [modem_create_dispatch cfg _ m h1 h2]
  refine ⟨_, e, rfl, ?_, ?_, ?_, ?_, ?_, ?_⟩
  · intro hev
    constructor
    · show (m + 1) / 2 = m / 2
      omega
    · rfl
  · intro hodd
    exact ⟨(ceil_half_odd m hodd).symm, (floor_half m).symm⟩
  · exact shl32_one _ (by omega)
  · exact shl32_one _ (by omega)
  · rintro rfl
    exact ⟨rfl, rfl, shl32_one 2 (by decide), shl32_one 2 (by decide), shl32_one 4 (by decide)⟩
  · rintro rfl
    exact ⟨rfl, rfl, shl32_one 3 (by decide), shl32_one 2 (by decide), shl32_one 5 (by decide)⟩

theorem modem_create_qam_split_witness :
    (1 ≤ 5 ∧ 5 ≤ Config.sample.MAX_MOD_BITS_PER_SYMBOL
        ∧ Config.sample.MAX_MOD_BITS_PER_SYMBOL < 32)
      ∧ ∃ mod : modem_s ℚ, modem_create Config.sample .MOD_QAM 5 = .ok mod
        ∧ mod.m_i = 3 ∧ mod.m_q = 2 ∧ mod.M_i = 8 ∧ mod.M_q = 4 ∧ mod.M = 32 :=
  ⟨⟨by decide, by decide, by decide⟩,
    (modem_create_qam_split Config.sample 5 (by decide) (by decide) (by decide)).imp
      fun _ h => ⟨h.1, h.2.2.2.2.2.2.2 rfl⟩⟩

/-- C5: for `m` in `[1, MAX_MOD_BITS_PER_SYMBOL]`, `modem_create_qam` returns a modem (neither
`assert` stops it) with `m_i + m_q = m` and `M_i * M_q = M`. The width ceiling is below the word
size. -/
theorem modem_create_qam_asserts (cfg : Config F) (m : Nat) (h1 : 1 ≤ m)
    (h2 : m ≤ cfg.MAX_MOD_BITS_PER_SYMBOL) (hmax : cfg.MAX_MOD_BITS_PER_SYMBOL < 32) :
    modem_create_qam cfg m ≠ .error .AssertFailed
      ∧ ∃ mod : modem_s F, modem_create_qam cfg m = .ok mod
        ∧ mod.m = m ∧ mod.m_i + mod.m_q = mod.m ∧ mod.M_i * mod.M_q = mod.M := by
  have hb : m < 32 := by omega
  obtain ⟨alpha, e⟩ := modem_create_qam_eq cfg m h1 h2 hb
  refine ⟨by rw [e]; exact ok_ne_error _ _, _, e, rfl, ?_, ?_⟩
  · show (m + 1) / 2 + m / 2 = m
    omega
  · show shl32 1 ((m + 1) / 2) * shl32 1 (m / 2) = shl32 1 m
    rw [shl32_one _ (by omega), shl32_one _ (by omega), shl32_one _ hb, ← pow_add]
    congr 1
    omega

theorem modem_create_qam_asserts_witness :
    (1 ≤ 7 ∧ 7 ≤ Config.sample.MAX_MOD_BITS_PER_SYMBOL
        ∧ Config.sample.MAX_MOD_BITS_PER_SYMBOL < 32)
      ∧ ∃ mod : modem_s ℚ, modem_create_qam Config.sample 7 = .ok mod
        ∧ mod.m = 7 ∧ mod.m_i + mod.m_q = mod.m ∧ mod.M_i * mod.M_q = mod.M :=
  ⟨⟨by decide, by decide, by decide⟩,
    (modem_create_qam_asserts Config.sample 7 (by decide) (by decide) (by decide)).2⟩

/-! ## Amplitude-phase widths -/

theorem modem_create_apsk_eq4 (cfg : Config F) :
    modem_create_apsk cfg 4 = modem_create_apsk16 cfg 4 := by
  simp [modem_create_apsk]

theorem modem_create_apsk_eq5 (cfg : Config F) :
    modem_create_apsk cfg 5 = modem_create_apsk32 cfg 5 := by
  simp [modem_create_apsk]

theorem modem_create_apsk_eq6 (cfg : Config F) :
    modem_create_apsk cfg 6 = modem_create_apsk64 cfg 6 := by
  simp [modem_create_apsk]

theorem modem_create_apsk_ne (cfg : Config F) (b : Nat) (h4 : b ≠ 4) (h5 : b ≠ 5) (h6 : b ≠ 6) :
    modem_create_apsk cfg b = .error .InvalidConfig := by
  simp [modem_create_apsk, h4, h5, h6]

/-- C6: for a width `b` in `[1, MAX_MOD_BITS_PER_SYMBOL]`, `modem_create` with `MOD_APSK` returns
a modem exactly for `b = 4`, `5`, `6`: a 16-, 32-, 64-point modem of scheme `MOD_APSK16`,
`MOD_APSK32`, `MOD_APSK64` bound to the table set of that name; every other width fails with
`InvalidConfig`. With `MOD_APSK16`, `MOD_APSK32`, `MOD_APSK64` it returns that modem for `b = 4`,
`5`, `6` respectively and fails with `InvalidConfig` for every other width. -/
theorem modem_create_apsk_widths (cfg : Config F) (b : Nat) (h1 : 1 ≤ b)
    (h2 : b ≤ cfg.MAX_MOD_BITS_PER_SYMBOL) :
    ((∃ mod, modem_create cfg .MOD_APSK b = .ok mod) ↔ b = 4 ∨ b = 5 ∨ b = 6)
      ∧ (b ≠ 4 → b ≠ 5 → b ≠ 6 → modem_create cfg .MOD_APSK b = .error .InvalidConfig)
      ∧ (b = 4 → ∃ mod, modem_create cfg .MOD_APSK b = .ok mod
          ∧ modem_create cfg .MOD_APSK16 b = .ok mod
          ∧ mod.scheme = .MOD_APSK16 ∧ mod.m = 4 ∧ mod.M = 16 ∧ mod.apsk = some .apsk16)
      ∧ (b = 5 → ∃ mod, modem_create cfg .MOD_APSK b = .ok mod
          ∧ modem_create cfg .MOD_APSK32 b = .ok mod
          ∧ mod.scheme = .MOD_APSK32 ∧ mod.m = 5 ∧ mod.M = 32 ∧ mod.apsk = some .apsk32)
      ∧ (b = 6 → ∃ mod, modem_create cfg .MOD_APSK b = .ok mod
          ∧ modem_create cfg .MOD_APSK64 b = .ok mod
          ∧ mod.scheme = .MOD_APSK64 ∧ mod.m = 6 ∧ mod.M = 64 ∧ mod.apsk = some .apsk64)
      ∧ (b ≠ 4 → modem_create cfg .MOD_APSK16 b = .error .InvalidConfig)
      ∧ (b ≠ 5 → modem_create cfg .MOD_APSK32 b = .error .InvalidConfig)
      ∧ (b ≠ 6 → modem_create cfg .MOD_APSK64 b = .error .InvalidConfig) := by
  have d := fun s => modem_create_dispatch cfg s b h1 h2
  have k4 : b = 4 → ∃ mod, modem_create cfg .MOD_APSK b = .ok mod
          ∧ modem_create cfg .MOD_APSK16 b = .ok mod
          ∧ mod.scheme = .MOD_APSK16 ∧ mod.m = 4 ∧ mod.M = 16 ∧ mod.apsk = some .apsk16 := by
    rintro rfl
    have e := modem_create_apsk16_eq cfg h2
    exact ⟨_, by rw [d, ← e]; exact modem_create_apsk_eq4 cfg, by rw [d, ← e], rfl, rfl,
      shl32_one 4 (by decide), rfl⟩
  have k5 : b = 5 → ∃ mod, modem_create cfg .MOD_APSK b = .ok mod
          ∧ modem_create cfg .MOD_APSK32 b = .ok mod
          ∧ mod.scheme = .MOD_APSK32 ∧ mod.m = 5 ∧ mod.M = 32 ∧ mod.apsk = some .apsk32 := by
    rintro rfl
    have e := modem_create_apsk32_eq cfg h2
    exact ⟨_, by rw [d, ← e]; exact modem_create_apsk_eq5 cfg, by rw [d, ← e], rfl, rfl,
      shl32_one 5 (by decide), rfl⟩
  have k6 : b = 6 → ∃ mod, modem_create cfg .MOD_APSK b = .ok mod
          ∧ modem_create cfg .MOD_APSK64 b = .ok mod
          ∧ mod.scheme = .MOD_APSK64 ∧ mod.m = 6 ∧ mod.M = 64 ∧ mod.apsk = some .apsk64 := by
    rintro rfl
    have e := modem_create_apsk64_eq cfg h2
    exact ⟨_, by rw [d, ← e]; exact modem_create_apsk_eq6 cfg, by rw [d, ← e], rfl, rfl,
      shl32_one 6 (by decide), rfl⟩
  have kn : b ≠ 4 → b ≠ 5 → b ≠ 6 → modem_create cfg .MOD_APSK b = .error .InvalidConfig := by
    intro h4 h5 h6
    rw [d]
    exact modem_create_apsk_ne cfg b h4 h5 h6
  refine ⟨⟨?_, ?_⟩, kn, k4, k5, k6, ?_, ?_, ?_⟩
  · rintro ⟨mod, hm⟩
    by_contra hc
    rw [kn (by omega) (by omega) (by omega)] at hm
    cases hm
  · rintro (h | h | h)
    · exact (k4 h).imp fun _ hh => hh.1
    · exact (k5 h).imp fun _ hh => hh.1
    · exact (k6 h).imp fun _ hh => hh.1
  · intro h; rw [d]; exact modem_create_apsk16_ne cfg b h
  · intro h; rw [d]; exact modem_create_apsk32_ne cfg b h
  · intro h; rw [d]; exact modem_create_apsk64_ne cfg b h

theorem modem_create_apsk_widths_witness :
    (1 ≤ 3 ∧ 3 ≤ Config.sample.MAX_MOD_BITS_PER_SYMBOL)
      ∧ modem_create Config.sample .MOD_APSK 3 = .error .InvalidConfig :=
  ⟨⟨by decide, by decide⟩,
    (modem_create_apsk_widths Config.sample 3 (by decide) (by decide)).2.1
      (by decide) (by decide) (by decide)⟩

/-! ## Reference table and phase scale -/

/-- C7: a modem created with scheme `MOD_ASK`, `MOD_QAM`, `MOD_PSK` or `MOD_DPSK` and width `m` in
`[1, MAX_MOD_BITS_PER_SYMBOL]` has `ref[k] = 2 ^ k * alpha` for every `k < m`, with `alpha` the
scale factor of that modem (exact arithmetic). The width ceiling is below the word size. -/
theorem modem_create_ref_table (cfg : Config F) (scheme : modulation_scheme) (m : Nat)
    (hs : scheme = .MOD_ASK ∨ scheme = .MOD_QAM ∨ scheme = .MOD_PSK ∨ scheme = .MOD_DPSK)
    (h1 : 1 ≤ m) (h2 : m ≤ cfg.MAX_MOD_BITS_PER_SYMBOL)
    (hmax : cfg.MAX_MOD_BITS_PER_SYMBOL < 32) :
    ∃ mod : modem_s F, modem_create cfg scheme m = .ok mod ∧ mod.m = m
      ∧ ∀ k, k < m → mod.ref[k]? = some (some (2 ^ k * mod.alpha)) := by
  have hb : m < 32 := by omega
  have key : ∀ (alpha : F) (k : Nat), k < m →
      (build_ref m alpha (List.replicate cfg.MAX_MOD_BITS_PER_SYMBOL none))[k]?
        = some (some (2 ^ k * alpha)) := by
    intro alpha k hk
    rw [build_ref_get m alpha _ k hk (by simpa using h2), shl32_one k (by omega)]
    push_cast
    rfl
  rw [modem_create_dispatch cfg scheme m h1 h2]
  rcases hs with rfl | rfl | rfl | rfl
  · obtain ⟨alpha, e⟩ := modem_create_ask_eq cfg m h1 h2
    exact ⟨_, e, rfl, key alpha⟩
  · obtain ⟨alpha, e⟩ := modem_create_qam_eq cfg m h1 h2 hb
    exact ⟨_, e, rfl, key alpha⟩
  · exact ⟨_, modem_create_psk_eq cfg m h1 h2, rfl, key _⟩
  · exact ⟨_, modem_create_dpsk_eq cfg m h1 h2, rfl, key _⟩

theorem modem_create_ref_table_witness :
    ((modulation_scheme.MOD_QAM = .MOD_ASK ∨ modulation_scheme.MOD_QAM = .MOD_QAM
          ∨ modulation_scheme.MOD_QAM = .MOD_PSK ∨ modulation_scheme.MOD_QAM = .MOD_DPSK)
        ∧ 1 ≤ 3 ∧ 3 ≤ Config.sample.MAX_MOD_BITS_PER_SYMBOL
        ∧ Config.sample.MAX_MOD_BITS_PER_SYMBOL < 32)
      ∧ ∃ mod : modem_s ℚ, modem_create Config.sample .MOD_QAM 3 = .ok mod ∧ mod.m = 3
        ∧ ∀ k, k < 3 → mod.ref[k]? = some (some (2 ^ k * mod.alpha)) :=
  ⟨⟨Or.inr (Or.inl rfl), by decide, by decide, by decide⟩,
    modem_create_ref_table Config.sample .MOD_QAM 3 (Or.inr (Or.inl rfl)) (by decide) (by decide)
      (by decide)⟩

/-- C8: over the reals, with `M_PI` the number pi: for `m` in `[1, MAX_MOD_BITS_PER_SYMBOL]`,
`modem_create` with `MOD_PSK` returns a modem with `M = 2 ^ m`, `alpha = pi / M` and
`d_phi = pi * (1 - 1 / M)`; for `m = 2` this is `alpha = pi / 4` and `d_phi = 3 * pi / 4`. The
width ceiling is below the word size. -/
theorem modem_create_psk_scale (cfg : Config ℝ) (hpi : cfg.M_PI = Real.pi) (m : Nat)
    (h1 : 1 ≤ m) (h2 : m ≤ cfg.MAX_MOD_BITS_PER_SYMBOL)
    (hmax : cfg.MAX_MOD_BITS_PER_SYMBOL < 32) :
    ∃ mod : modem_s ℝ, modem_create cfg .MOD_PSK m = .ok mod
      ∧ mod.M = 2 ^ m
      ∧ mod.alpha = Real.pi / (mod.M : ℝ)
      ∧ mod.alpha = Real.pi / 2 ^ m
      ∧ mod.d_phi = Real.pi * (1 - 1 / (mod.M : ℝ))
      ∧ mod.d_phi = Real.pi * (1 - 1 / 2 ^ m)
      ∧ (m = 2 → mod.alpha = Real.pi / 4 ∧ mod.d_phi = 3 * Real.pi / 4) := by
  have hb : m < 32 := by omega
  have hM : ((shl32 1 m : Nat) : ℝ) = 2 ^ m := by rw [shl32_one m hb]; push_cast; rfl
  rw [modem_create_dispatch cfg _ m h1 h2]
  refine ⟨_, modem_create_psk_eq cfg m h1 h2, shl32_one m hb, ?_, ?_, ?_, ?_, ?_⟩
  · show cfg.M_PI / ((shl32 1 m : Nat) : ℝ) = Real.pi / ((shl32 1 m : Nat) : ℝ)
    rw [hpi]
  · show cfg.M_PI / ((shl32 1 m : Nat) : ℝ) = Real.pi / 2 ^ m
    rw [hpi, hM]
  · show cfg.M_PI * (1 - 1 / ((shl32 1 m : Nat) : ℝ)) = Real.pi * (1 - 1 / ((shl32 1 m : Nat) : ℝ))
    rw [hpi]
  · show cfg.M_PI * (1 - 1 / ((shl32 1 m : Nat) : ℝ)) = Real.pi * (1 - 1 / 2 ^ m)
    rw [hpi, hM]
  · rintro rfl
    constructor
    · show cfg.M_PI / ((shl32 1 2 : Nat) : ℝ) = Real.pi / 4
      rw [hpi, hM]; norm_num
    · show cfg.M_PI * (1 - 1 / ((shl32 1 2 : Nat) : ℝ)) = 3 * Real.pi / 4
      rw [hpi, hM]; ring

theorem modem_create_psk_scale_witness :
    ((Config.eightBit Real.pi Real.sqrt).M_PI = Real.pi ∧ 1 ≤ 2
        ∧ 2 ≤ (Config.eightBit Real.pi Real.sqrt).MAX_MOD_BITS_PER_SYMBOL
        ∧ (Config.eightBit Real.pi Real.sqrt).MAX_MOD_BITS_PER_SYMBOL < 32)
      ∧ ∃ mod : modem_s ℝ,
        modem_create (Config.eightBit Real.pi Real.sqrt) .MOD_PSK 2 = .ok mod
        ∧ mod.alpha = Real.pi / 4 ∧ mod.d_phi = 3 * Real.pi / 4 :=
  ⟨⟨rfl, by decide, by decide, by decide⟩,
    (modem_create_psk_scale (Config.eightBit Real.pi Real.sqrt) rfl 2 (by decide) (by decide)
      (by decide)).imp fun _ h => ⟨h.1, h.2.2.2.2.2.2 rfl⟩⟩

/-! ## Arbitrary-constellation loaders -/

omit [LinearOrderedField F] in
theorem symbol_map_store_error (sm : Option (List (Cplx F))) (i : Nat) (z : Cplx F)
    (e : ModemError) (h : symbol_map_store sm i z = .error e) : e = .MemoryFault := by
  unfold symbol_map_store at h
  split at h
  · cases h; rfl
  · split at h
    · cases h
    · cases h; rfl

theorem modem_arb_balance_iq_error (mod : modem_s F) (e : ModemError)
    (h : modem_arb_balance_iq mod = .error e) : e = .MemoryFault := by
  unfold modem_arb_balance_iq at h
  split at h
  · split at h
    · cases h
    · cases h; rfl
  · split at h
    · cases h; rfl
    · cases h

theorem modem_arb_scale_error (cfg : Config F) (mod : modem_s F) (e : ModemError)
    (h : modem_arb_scale cfg mod = .error e) : e = .MemoryFault := by
  unfold modem_arb_scale at h
  split at h
  · split at h
    · cases h
    · cases h; rfl
  · split at h
    · cases h; rfl
    · cases h

theorem arb_normalize_err (cfg : Config F) (mod : modem_s F) (w : Nat) :
    (arb_normalize cfg mod w).err = none ∨ (arb_normalize cfg mod w).err = some .MemoryFault := by
  unfold arb_normalize
  split
  · rename_i e he
    right
    split at he
    · rw [modem_arb_balance_iq_error mod e he]
    · cases he
  · split
    · rename_i e he
      right
      rw [modem_arb_scale_error cfg _ e he]
    · left; rfl

theorem arb_init_file_loop_err (cfg : Config F) (n i : Nat) (f : List (Token F)) (sym_i sym_q : F)
    (mod : modem_s F) (w : Nat) :
    (arb_init_file_loop cfg n i f sym_i sym_q mod w).err = none
      ∨ (arb_init_file_loop cfg n i f sym_i sym_q mod w).err = some .MemoryFault
      ∨ (arb_init_file_loop cfg n i f sym_i sym_q mod w).err = some .ParseError := by
  induction n generalizing i f sym_i sym_q mod w with
  | zero => left; rfl
  | succ n ih =>
    unfold arb_init_file_loop
    rcases hs : fscanf_pair f sym_i sym_q with ⟨results, si, sq, f2⟩
    simp only
    cases hst : symbol_map_store mod.symbol_map i ⟨si, sq⟩ with
    | error e =>
      right; left
      simp only
      rw [symbol_map_store_error _ _ _ _ hst]
    | ok sm =>
      simp only
      split
      · right; right; rfl
      · exact ih _ _ _ _ _ _

theorem modem_arb_init_file_err (cfg : Config F) (mod : modem_s F)
    (source : Option (List (Token F))) (sym_i sym_q : F) :
    (modem_arb_init_file cfg mod source sym_i sym_q).err ≠ some .SchemeMismatch := by
  unfold modem_arb_init_file
  split
  · simp
  · rename_i f
    simp only
    rcases arb_init_file_loop_err cfg mod.M 0 f sym_i sym_q mod 0 with h | h | h
    · rw [h]
      simp only
      rcases arb_normalize_err cfg (arb_init_file_loop cfg mod.M 0 f sym_i sym_q mod 0).mod
        (arb_init_file_loop cfg mod.M 0 f sym_i sym_q mod 0).warnings with h2 | h2 <;>
        rw [h2] <;> simp
    · rw [h]; simp only; rw [h]; simp
    · rw [h]; simp only; rw [h]; simp

theorem modem_arb_init_scheme_mismatch (cfg : Config F) (hv : cfg.LIQUID_VALIDATE_INPUT = true)
    (mod : modem_s F) (h1 : mod.scheme ≠ .MOD_ARB) (h2 : mod.scheme ≠ .MOD_ARB_MIRRORED)
    (h3 : mod.scheme ≠ .MOD_ARB_ROTATED) (symbol_map : List (Cplx F)) :
    modem_arb_init cfg mod symbol_map = ⟨some .SchemeMismatch, mod, 0⟩ := by
  simp [modem_arb_init, hv, h1, h2, h3]

/-- C9 (the code departs from the claim): `modem_arb_init_file` has no exit for a modem that is
not of an arbitrary scheme, so it never fails with `SchemeMismatch`; on the two-bit-wide
constellation of a `MOD_PSK` modem of width 1, which `modem_arb_init` rejects with
`SchemeMismatch`, it stores the first pair read through the null `symbol_map`. -/
theorem modem_arb_init_file_psk_fault :
    (∀ (cfg : Config ℚ) (mod : modem_s ℚ) (source : Option (List (Token ℚ))) (sym_i sym_q : ℚ),
        (modem_arb_init_file cfg mod source sym_i sym_q).err ≠ some .SchemeMismatch)
      ∧ ∃ mod : modem_s ℚ, modem_create Config.sample .MOD_PSK 1 = .ok mod
        ∧ mod.scheme = .MOD_PSK
        ∧ (modem_arb_init Config.sample mod [⟨1, 0⟩, ⟨0, 1⟩]).err = some .SchemeMismatch
        ∧ (modem_arb_init_file Config.sample mod (some [.num 1, .num 0, .num 0, .num 1]) 0 0).err
            = some .MemoryFault := by
  refine ⟨fun cfg mod source sym_i sym_q => modem_arb_init_file_err cfg mod source sym_i sym_q,
    _, modem_create_psk_eq Config.sample 1 (by decide) (by decide), rfl, ?_, ?_⟩
  · rw [modem_arb_init_scheme_mismatch Config.sample rfl _ (by decide) (by decide) (by decide)]
  · simp [modem_arb_init_file, arb_init_file_loop, fscanf_pair, symbol_map_store, modem_alloc,
      shl32]

/-- C10: with input validation compiled in, `modem_arb_init` on a modem of an arbitrary scheme
and a point list whose length is not `M` fails with `SizeMismatch` and leaves the modem, so its
`symbol_map`, as it was; loading 15 points into the 16-point modem that `modem_create` returns
for `MOD_ARB` and width 4 fails with `SizeMismatch`. -/
theorem modem_arb_init_size_mismatch (cfg : Config F) (hv : cfg.LIQUID_VALIDATE_INPUT = true)
    (mod : modem_s F)
    (hs : mod.scheme = .MOD_ARB ∨ mod.scheme = .MOD_ARB_MIRRORED ∨ mod.scheme = .MOD_ARB_ROTATED)
    (points : List (Cplx F)) (hlen : points.length ≠ mod.M) :
    (modem_arb_init cfg mod points).err = some .SizeMismatch
      ∧ (modem_arb_init cfg mod points).mod = mod
      ∧ (modem_arb_init cfg mod points).mod.symbol_map = mod.symbol_map
      ∧ (4 ≤ cfg.MAX_MOD_BITS_PER_SYMBOL → ∀ pts : List (Cplx F), pts.length = 15 →
          ∃ mod16 : modem_s F, modem_create cfg .MOD_ARB 4 = .ok mod16 ∧ mod16.M = 16
            ∧ (modem_arb_init cfg mod16 pts).err = some .SizeMismatch
            ∧ (modem_arb_init cfg mod16 pts).mod.symbol_map = mod16.symbol_map) := by
  have key : ∀ (md : modem_s F) (pts : List (Cplx F)),
      (md.scheme = .MOD_ARB ∨ md.scheme = .MOD_ARB_MIRRORED ∨ md.scheme = .MOD_ARB_ROTATED) →
      pts.length ≠ md.M → modem_arb_init cfg md pts = ⟨some .SizeMismatch, md, 0⟩ := by
    intro md pts hsc hl
    have hne : ¬ (md.scheme ≠ .MOD_ARB ∧ md.scheme ≠ .MOD_ARB_MIRRORED
        ∧ md.scheme ≠ .MOD_ARB_ROTATED) := by
      rintro ⟨a, b, c⟩
      rcases hsc with h | h | h
      · exact a h
      · exact b h
      · exact c h
    unfold modem_arb_init
    rw [if_neg (fun h => hne h.2), if_pos ⟨hv, hl⟩]
  refine ⟨by rw [key mod points hs hlen], by rw [key mod points hs hlen],
    by rw [key mod points hs hlen], ?_⟩
  intro h4 pts hp
  have e := modem_create_arb_eq cfg 4 (by decide) h4
  have e' : modem_create cfg .MOD_ARB 4 = modem_create_arb cfg 4 :=
    modem_create_dispatch cfg .MOD_ARB 4 (by decide) h4
  refine ⟨_, e'.trans e, shl32_one 4 (by decide), ?_, ?_⟩
  · rw [key _ pts (Or.inl rfl) (by rw [hp]; show 15 ≠ shl32 1 4; decide)]
  · rw [key _ pts (Or.inl rfl) (by rw [hp]; show 15 ≠ shl32 1 4; decide)]

theorem modem_arb_init_size_mismatch_witness :
    ∃ mod : modem_s ℚ, modem_create Config.sample .MOD_ARB_ROTATED 3 = .ok mod
      ∧ (Config.sample.LIQUID_VALIDATE_INPUT = true
        ∧ (mod.scheme = .MOD_ARB ∨ mod.scheme = .MOD_ARB_MIRRORED
          ∨ mod.scheme = .MOD_ARB_ROTATED)
        ∧ [(⟨1, 1⟩ : Cplx ℚ), ⟨2, 1⟩, ⟨1, 2⟩].length ≠ mod.M)
      ∧ (modem_arb_init Config.sample mod [⟨1, 1⟩, ⟨2, 1⟩, ⟨1, 2⟩]).err = some .SizeMismatch
      ∧ (modem_arb_init Config.sample mod [⟨1, 1⟩, ⟨2, 1⟩, ⟨1, 2⟩]).mod.symbol_map
          = mod.symbol_map :=
  ⟨_, modem_create_arb_rotated_eq Config.sample 3 (by decide) (by decide),
    ⟨rfl, Or.inr (Or.inr rfl), by decide⟩,
    (modem_arb_init_size_mismatch Config.sample rfl _ (Or.inr (Or.inr rfl))
      [⟨1, 1⟩, ⟨2, 1⟩, ⟨1, 2⟩] (by decide)).1,
    (modem_arb_init_size_mismatch Config.sample rfl _ (Or.inr (Or.inr rfl))
      [⟨1, 1⟩, ⟨2, 1⟩, ⟨1, 2⟩] (by decide)).2.2.1⟩

/-! ## The loaders on a modem whose `symbol_map` holds `M` points -/

omit [LinearOrderedField F] in
theorem symbol_map_store_append (pre rest : List (Cplx F)) (r z : Cplx F) :
    symbol_map_store (some (pre ++ r :: rest)) pre.length z = .ok (some (pre ++ z :: rest)) := by
  unfold symbol_map_store
  have h : pre.length < (pre ++ r :: rest).length := by simp
  simp only [h, if_true]
  rw [List.set_append_right _ _ (le_refl _)]
  simp

theorem arb_init_copy_append (cfg : Config F) (pts pre rest : List (Cplx F)) (mod : modem_s F)
    (w : Nat) (hl : mod.symbol_map = some (pre ++ rest)) (hlen : pts.length ≤ rest.length) :
    (arb_init_copy cfg pts pre.length mod w).err = none
      ∧ (arb_init_copy cfg pts pre.length mod w).mod
          = { mod with symbol_map := some (pre ++ pts ++ rest.drop pts.length) } := by
  induction pts generalizing pre rest mod w with
  | nil =>
    simp only [arb_init_copy, List.append_nil, List.length_nil, List.drop_zero, true_and]
    rw [← hl]
  | cons z zs ih =>
    cases rest with
    | nil => simp at hlen
    | cons r rs =>
      unfold arb_init_copy
      simp only [hl, symbol_map_store_append]
      have h := ih (pre ++ [z]) rs { mod with symbol_map := some (pre ++ z :: rs) }
        (if cfg.LIQUID_VALIDATE_INPUT
          ∧ (mod.scheme = .MOD_ARB_MIRRORED ∨ mod.scheme = .MOD_ARB_ROTATED)
          ∧ (z.re ≤ 0 ∨ z.im ≤ 0) then w + 1 else w) (by simp)
        (by simpa using hlen)
      simp only [List.length_append, List.length_singleton] at h
      refine ⟨h.1, ?_⟩
      rw [h.2]
      simp

theorem arb_init_copy_ok (cfg : Config F) (pts l : List (Cplx F)) (mod : modem_s F)
    (hl : mod.symbol_map = some l) (hlen : pts.length = l.length) :
    (arb_init_copy cfg pts 0 mod 0).err = none
      ∧ (arb_init_copy cfg pts 0 mod 0).mod = { mod with symbol_map := some pts } := by
  have h := arb_init_copy_append cfg pts [] l mod 0 (by simpa using hl) (le_of_eq hlen)
  simp only [List.length_nil, List.nil_append] at h
  rw [hlen, List.drop_length, List.append_nil] at h
  exact h

theorem modem_arb_balance_iq_ok (mod : modem_s F) (l : List (Cplx F))
    (hl : mod.symbol_map = some l) (hlen : l.length = mod.M) :
    modem_arb_balance_iq mod = .ok { mod with
      symbol_map := some (l.map fun z =>
        ⟨z.re - l.foldl (fun mean z => mean + z.re) 0 / (mod.M : F), z.im⟩) } := by
  unfold modem_arb_balance_iq
  simp only [hl]
  rw [if_neg (by omega), ← hlen, List.take_length, List.drop_length, List.append_nil]

theorem modem_arb_scale_ok (cfg : Config F) (mod : modem_s F) (l : List (Cplx F))
    (hl : mod.symbol_map = some l) (hlen : l.length = mod.M) :
    modem_arb_scale cfg mod = .ok { mod with
      symbol_map := some (l.map fun z =>
        ⟨z.re / cfg.sqrtf (l.foldl (fun e z => e + cabsf cfg z * cabsf cfg z) 0 / (mod.M : F)),
          z.im / cfg.sqrtf (l.foldl (fun e z => e + cabsf cfg z * cabsf cfg z) 0
            / (mod.M : F))⟩) } := by
  unfold modem_arb_scale
  simp only [hl]
  rw [if_neg (by omega), ← hlen, List.take_length, List.drop_length, List.append_nil]

theorem modem_arb_init_eq (cfg : Config F) (mod : modem_s F) (l points : List (Cplx F))
    (hs : mod.scheme = .MOD_ARB ∨ mod.scheme = .MOD_ARB_MIRRORED ∨ mod.scheme = .MOD_ARB_ROTATED)
    (hl : mod.symbol_map = some l) (hlen : l.length = mod.M) (hp : points.length = mod.M) :
    modem_arb_init cfg mod points
      = arb_normalize cfg { mod with symbol_map := some points }
          (arb_init_copy cfg points 0 mod 0).warnings := by
  have hne : ¬ (cfg.LIQUID_VALIDATE_INPUT = true ∧ mod.scheme ≠ .MOD_ARB
      ∧ mod.scheme ≠ .MOD_ARB_MIRRORED ∧ mod.scheme ≠ .MOD_ARB_ROTATED) := by
    rintro ⟨_, a, b, c⟩
    rcases hs with h | h | h
    · exact a h
    · exact b h
    · exact c h
  have hne2 : ¬ (cfg.LIQUID_VALIDATE_INPUT = true ∧ points.length ≠ mod.M) := fun h => h.2 hp
  obtain ⟨h1, h2⟩ := arb_init_copy_ok cfg points l mod hl (hp.trans hlen.symm)
  unfold modem_arb_init
  rw [if_neg hne, if_neg hne2]
  simp only [h1, h2]

theorem arb_normalize_arb (cfg : Config F) (mod : modem_s F) (l : List (Cplx F)) (w : Nat)
    (hs : mod.scheme = .MOD_ARB) (hl : mod.symbol_map = some l) (hlen : l.length = mod.M) :
    ∃ mb ms, modem_arb_balance_iq mod = .ok mb ∧ modem_arb_scale cfg mb = .ok ms
      ∧ arb_normalize cfg mod w = ⟨none, ms, w⟩ := by
  have hb := modem_arb_balance_iq_ok mod l hl hlen
  refine ⟨_, _, hb, modem_arb_scale_ok cfg _ _ rfl (by simpa using hlen), ?_⟩
  unfold arb_normalize
  rw [if_pos hs, hb]
  simp only
  rw [modem_arb_scale_ok cfg _ _ rfl (by simpa using hlen)]

theorem arb_normalize_quadrant (cfg : Config F) (mod : modem_s F) (l : List (Cplx F)) (w : Nat)
    (hs : mod.scheme ≠ .MOD_ARB) (hl : mod.symbol_map = some l) (hlen : l.length = mod.M) :
    ∃ ms, modem_arb_scale cfg mod = .ok ms ∧ arb_normalize cfg mod w = ⟨none, ms, w⟩ := by
  have hsc := modem_arb_scale_ok cfg mod l hl hlen
  refine ⟨_, hsc, ?_⟩
  unfold arb_normalize
  rw [if_neg hs]
  simp only
  rw [hsc]

/-- C12: on a modem of an arbitrary scheme whose `symbol_map` holds `M` points, `modem_arb_init`
with a list of exactly `M` points returns normally; the list is copied in order, and the modem it
leaves is `modem_arb_scale` of `modem_arb_balance_iq` of the copy when the scheme is `MOD_ARB`,
and `modem_arb_scale` of the copy when the scheme is `MOD_ARB_MIRRORED` or `MOD_ARB_ROTATED`. -/
theorem modem_arb_init_normalization (cfg : Config F) (mod : modem_s F)
    (l points : List (Cplx F))
    (hs : mod.scheme = .MOD_ARB ∨ mod.scheme = .MOD_ARB_MIRRORED ∨ mod.scheme = .MOD_ARB_ROTATED)
    (hl : mod.symbol_map = some l) (hlen : l.length = mod.M) (hp : points.length = mod.M) :
    (modem_arb_init cfg mod points).err = none
      ∧ (arb_init_copy cfg points 0 mod 0).mod = { mod with symbol_map := some points }
      ∧ (mod.scheme = .MOD_ARB →
          ∃ mb ms, modem_arb_balance_iq { mod with symbol_map := some points } = .ok mb
            ∧ modem_arb_scale cfg mb = .ok ms ∧ (modem_arb_init cfg mod points).mod = ms)
      ∧ (mod.scheme = .MOD_ARB_MIRRORED ∨ mod.scheme = .MOD_ARB_ROTATED →
          ∃ ms, modem_arb_scale cfg { mod with symbol_map := some points } = .ok ms
            ∧ (modem_arb_init cfg mod points).mod = ms) := by
  have e := modem_arb_init_eq cfg mod l points hs hl hlen hp
  have hc := (arb_init_copy_ok cfg points l mod hl (hp.trans hlen.symm)).2
  refine ⟨?_, hc, ?_, ?_⟩
  · by_cases ha : mod.scheme = .MOD_ARB
    · obtain ⟨mb, ms, _, _, h3⟩ := arb_normalize_arb cfg { mod with symbol_map := some points }
        points (arb_init_copy cfg points 0 mod 0).warnings ha rfl hp
      rw [e, h3]
    · obtain ⟨ms, _, h3⟩ := arb_normalize_quadrant cfg { mod with symbol_map := some points }
        points (arb_init_copy cfg points 0 mod 0).warnings ha rfl hp
      rw [e, h3]
  · intro ha
    obtain ⟨mb, ms, h1, h2, h3⟩ := arb_normalize_arb cfg { mod with symbol_map := some points }
      points (arb_init_copy cfg points 0 mod 0).warnings ha rfl hp
    exact ⟨mb, ms, h1, h2, by rw [e, h3]⟩
  · intro hq
    have ha : mod.scheme ≠ .MOD_ARB := by
      rcases hq with h | h <;> rw [h] <;> decide
    obtain ⟨ms, h2, h3⟩ := arb_normalize_quadrant cfg { mod with symbol_map := some points }
      points (arb_init_copy cfg points 0 mod 0).warnings ha rfl hp
    exact ⟨ms, h2, by rw [e, h3]⟩

theorem modem_arb_init_normalization_witness :
    ∃ (mod : modem_s ℚ) (l : List (Cplx ℚ)),
      modem_create Config.sample .MOD_ARB 1 = .ok mod
      ∧ ((mod.scheme = .MOD_ARB ∨ mod.scheme = .MOD_ARB_MIRRORED
          ∨ mod.scheme = .MOD_ARB_ROTATED)
        ∧ mod.symbol_map = some l ∧ l.length = mod.M
        ∧ [(⟨3, 4⟩ : Cplx ℚ), ⟨-3, 4⟩].length = mod.M)
      ∧ (modem_arb_init Config.sample mod [⟨3, 4⟩, ⟨-3, 4⟩]).err = none :=
  ⟨_, _, modem_create_arb_eq Config.sample 1 (by decide) (by decide),
    ⟨Or.inl rfl, rfl, List.length_replicate _ _, by decide⟩,
    (modem_arb_init_normalization Config.sample _ _ [⟨3, 4⟩, ⟨-3, 4⟩] (Or.inl rfl) rfl
      (List.length_replicate _ _) (by decide)).1⟩

/-! ## Sources read by `modem_arb_init_file` -/

omit [LinearOrderedField F] in
theorem fscanf_pair_pairs (f : List (Token F)) (sym_i sym_q : F)
    (hnum : ∀ t ∈ f, ∃ x, t = Token.num x) (heven : f.length % 2 = 0) :
    2 ≤ (fscanf_pair f sym_i sym_q).1
      ∧ (∀ t ∈ (fscanf_pair f sym_i sym_q).2.2.2, ∃ x, t = Token.num x)
      ∧ (fscanf_pair f sym_i sym_q).2.2.2.length % 2 = 0 := by
  match f, hnum, heven with
  | [], _, _ => exact ⟨by simp [fscanf_pair, UINT_SIZE], by simp [fscanf_pair], rfl⟩
  | [t], _, h => simp at h
  | .junk :: _, hn, _ =>
    obtain ⟨x, hx⟩ := hn .junk (by simp)
    cases hx
  | .num x :: .junk :: _, hn, _ =>
    obtain ⟨x, hx⟩ := hn .junk (by simp)
    cases hx
  | .num x :: .num y :: f, hn, h =>
    refine ⟨le_refl 2, ?_, ?_⟩
    · intro t ht
      exact hn t (by simp [fscanf_pair] at ht; simp [ht])
    · simp only [fscanf_pair]
      simp only [List.length_cons] at h
      omega

theorem arb_init_file_loop_pairs (cfg : Config F) (n i : Nat) (f : List (Token F))
    (sym_i sym_q : F) (mod : modem_s F) (w : Nat)
    (hnum : ∀ t ∈ f, ∃ x, t = Token.num x) (heven : f.length % 2 = 0) :
    (arb_init_file_loop cfg n i f sym_i sym_q mod w).err ≠ some .ParseError := by
  induction n generalizing i f sym_i sym_q mod w with
  | zero => simp [arb_init_file_loop]
  | succ n ih =>
    unfold arb_init_file_loop
    obtain ⟨h2, hn, he⟩ := fscanf_pair_pairs f sym_i sym_q hnum heven
    rcases hs : fscanf_pair f sym_i sym_q with ⟨results, si, sq, f2⟩
    rw [hs] at h2 hn he
    simp only at h2 hn he ⊢
    cases hst : symbol_map_store mod.symbol_map i ⟨si, sq⟩ with
    | error e =>
      simp only
      rw [symbol_map_store_error _ _ _ _ hst]
      decide
    | ok sm =>
      simp only
      rw [if_neg (by omega)]
      exact ih _ _ _ _ _ _ hn he

theorem modem_arb_init_file_pairs (cfg : Config F) (mod : modem_s F) (f : List (Token F))
    (sym_i sym_q : F) (hnum : ∀ t ∈ f, ∃ x, t = Token.num x) (heven : f.length % 2 = 0) :
    (modem_arb_init_file cfg mod (some f) sym_i sym_q).err ≠ some .ParseError := by
  unfold modem_arb_init_file
  simp only
  have h := arb_init_file_loop_pairs cfg mod.M 0 f sym_i sym_q mod 0 hnum heven
  split
  · exact h
  · rcases arb_normalize_err cfg (arb_init_file_loop cfg mod.M 0 f sym_i sym_q mod 0).mod
      (arb_init_file_loop cfg mod.M 0 f sym_i sym_q mod 0).warnings with h2 | h2 <;>
      rw [h2] <;> decide

/-- C11 (the code departs from the claim): `results` is unsigned, so the `EOF` that `fscanf`
returns at the end of the source is not below 2: a source of complete pairs never makes
`modem_arb_init_file` fail with `ParseError`, however few pairs it holds. On the two-point modem
that `modem_create` returns for `MOD_ARB` and width 1, a source holding the single pair `3 4`
is read as if it held that pair twice and the call returns normally, while a source with a
lone value or a malformed entry does fail with `ParseError`. -/
theorem modem_arb_init_file_short_source :
    (∀ (cfg : Config ℚ) (mod : modem_s ℚ) (f : List (Token ℚ)) (sym_i sym_q : ℚ),
        (∀ t ∈ f, ∃ x, t = Token.num x) → f.length % 2 = 0 →
        (modem_arb_init_file cfg mod (some f) sym_i sym_q).err ≠ some .ParseError)
      ∧ ∃ mod : modem_s ℚ, modem_create Config.sample .MOD_ARB 1 = .ok mod ∧ mod.M = 2
        ∧ (arb_init_file_loop Config.sample mod.M 0 [.num 3, .num 4] 0 0 mod 0).err = none
        ∧ (arb_init_file_loop Config.sample mod.M 0 [.num 3, .num 4] 0 0 mod 0).mod.symbol_map
            = some [⟨3, 4⟩, ⟨3, 4⟩]
        ∧ (modem_arb_init_file Config.sample mod (some [.num 3, .num 4]) 0 0).err = none
        ∧ (modem_arb_init_file Config.sample mod (some [.num 3]) 0 0).err = some .ParseError
        ∧ (modem_arb_init_file Config.sample mod (some [.junk, .num 4]) 0 0).err
            = some .ParseError := by
  refine ⟨fun cfg mod f sym_i sym_q => modem_arb_init_file_pairs cfg mod f sym_i sym_q,
    _, modem_create_arb_eq Config.sample 1 (by decide) (by decide), by decide, ?_⟩
  have hM : shl32 1 1 = 2 := by decide
  have hloop : arb_init_file_loop Config.sample 2 0 [.num 3, .num 4] 0 0
      { modem_alloc Config.sample .MOD_ARB with
        m := 1, M := shl32 1 1, symbol_map := calloc_symbol_map (shl32 1 1),
        modulate_func := some .arb, demodulate_func := some .arb } 0
      = ⟨none, { modem_alloc Config.sample .MOD_ARB with
        m := 1, M := shl32 1 1, symbol_map := some [⟨3, 4⟩, ⟨3, 4⟩],
        modulate_func := some .arb, demodulate_func := some .arb }, 0⟩ := by
    simp [arb_init_file_loop, fscanf_pair, symbol_map_store, calloc_symbol_map, hM, UINT_SIZE,
      modem_alloc]
  simp only [hM] at hloop ⊢
  refine ⟨by rw [hloop], by rw [hloop], ?_, ?_, ?_⟩
  rotate_left
  · simp [modem_arb_init_file, arb_init_file_loop, fscanf_pair, symbol_map_store,
      calloc_symbol_map, hM]
  · simp [modem_arb_init_file, arb_init_file_loop, fscanf_pair, symbol_map_store,
      calloc_symbol_map, hM]
  simp only [modem_arb_init_file, hM, hloop]
  obtain ⟨mb, ms, _, _, h3⟩ := arb_normalize_arb Config.sample
    { modem_alloc Config.sample .MOD_ARB with
        m := 1, M := 2, symbol_map := some [⟨3, 4⟩, ⟨3, 4⟩],
        modulate_func := some .arb, demodulate_func := some .arb } [⟨3, 4⟩, ⟨3, 4⟩] 0 rfl rfl rfl
  rw [h3]

/-! ## Energy after loading -/

theorem modem_arb_scale_divisor (cfg : Config F) (mod : modem_s F) (l : List (Cplx F))
    (hl : mod.symbol_map = some l) (hlen : l.length = mod.M) :
    modem_arb_scale cfg mod = .ok { mod with
      symbol_map := some (l.map fun z =>
        ⟨z.re / arb_scale_divisor cfg l mod.M, z.im / arb_scale_divisor cfg l mod.M⟩) } := by
  rw [modem_arb_scale_ok cfg mod l hl hlen]
  unfold arb_scale_divisor
  rw [← hlen, List.take_length]

theorem cabsf_mul_self (cfg : Config ℝ) (hsqrt : cfg.sqrtf = Real.sqrt) (z : Cplx ℝ) :
    cabsf cfg z * cabsf cfg z = z.normSq := by
  unfold cabsf Cplx.normSq
  rw [hsqrt]
  exact Real.mul_self_sqrt (add_nonneg (mul_self_nonneg _) (mul_self_nonneg _))

theorem foldl_energy (cfg : Config ℝ) (hsqrt : cfg.sqrtf = Real.sqrt) (l : List (Cplx ℝ))
    (a : ℝ) :
    l.foldl (fun e z => e + cabsf cfg z * cabsf cfg z) a = a + (l.map Cplx.normSq).sum := by
  induction l generalizing a with
  | nil => simp
  | cons z zs ih =>
    simp only [List.foldl_cons, List.map_cons, List.sum_cons]
    rw [ih, cabsf_mul_self cfg hsqrt]
    ring

theorem sum_normSq_nonneg (l : List (Cplx ℝ)) : 0 ≤ (l.map Cplx.normSq).sum := by
  induction l with
  | nil => simp
  | cons z zs ih =>
    simp only [List.map_cons, List.sum_cons]
    exact add_nonneg (add_nonneg (mul_self_nonneg _) (mul_self_nonneg _)) ih

theorem sum_normSq_div (l : List (Cplx ℝ)) (e : ℝ) :
    ((l.map fun z => (⟨z.re / e, z.im / e⟩ : Cplx ℝ)).map Cplx.normSq).sum
      = (l.map Cplx.normSq).sum / (e * e) := by
  induction l with
  | nil => simp
  | cons z zs ih =>
    simp only [List.map_cons, List.sum_cons, ih]
    unfold Cplx.normSq
    by_cases he : e = 0
    · subst he; simp
    · field_simp

theorem arb_scale_divisor_sq (cfg : Config ℝ) (hsqrt : cfg.sqrtf = Real.sqrt)
    (l : List (Cplx ℝ)) (M : Nat) (hlen : l.length = M) :
    arb_scale_divisor cfg l M * arb_scale_divisor cfg l M
      = (l.map Cplx.normSq).sum / (M : ℝ) := by
  unfold arb_scale_divisor
  rw [← hlen, List.take_length, foldl_energy cfg hsqrt, hsqrt, zero_add]
  exact Real.mul_self_sqrt (div_nonneg (sum_normSq_nonneg l) (Nat.cast_nonneg _))

theorem scaled_unit_energy (cfg : Config ℝ) (hsqrt : cfg.sqrtf = Real.sqrt)
    (l : List (Cplx ℝ)) (M : Nat) (hlen : l.length = M) (hM : 1 ≤ M)
    (hdiv : arb_scale_divisor cfg l M ≠ 0) :
    avg_energy M (l.map fun z =>
      ⟨z.re / arb_scale_divisor cfg l M, z.im / arb_scale_divisor cfg l M⟩) = 1 := by
  unfold avg_energy
  rw [sum_normSq_div, arb_scale_divisor_sq cfg hsqrt l M hlen]
  have hsq : arb_scale_divisor cfg l M * arb_scale_divisor cfg l M ≠ 0 := mul_ne_zero hdiv hdiv
  rw [arb_scale_divisor_sq cfg hsqrt l M hlen] at hsq
  have hMr : (M : ℝ) ≠ 0 := by exact_mod_cast (by omega : M ≠ 0)
  have hS : (l.map Cplx.normSq).sum ≠ 0 := fun h => hsq (by rw [h, zero_div])
  field_simp

/-- C13: in exact real arithmetic (`sqrtf` the real square root), on a modem of an arbitrary
scheme whose `symbol_map` holds `M ≥ 1` points, `modem_arb_init` with `M` points leaves a
`symbol_map` of `M` points with `(1/M) * Σ |symbol_map[i]|^2 = 1`, whenever the divisor that
`modem_arb_scale` computes is not zero: the divisor over the balanced points when the scheme is
`MOD_ARB`, over the points as given when it is `MOD_ARB_MIRRORED` or `MOD_ARB_ROTATED`. -/
theorem modem_arb_init_unit_energy (cfg : Config ℝ) (hsqrt : cfg.sqrtf = Real.sqrt)
    (mod : modem_s ℝ) (l points : List (Cplx ℝ))
    (hs : mod.scheme = .MOD_ARB ∨ mod.scheme = .MOD_ARB_MIRRORED ∨ mod.scheme = .MOD_ARB_ROTATED)
    (hl : mod.symbol_map = some l) (hlen : l.length = mod.M) (hp : points.length = mod.M)
    (hM : 1 ≤ mod.M) :
    (modem_arb_init cfg mod points).err = none
      ∧ (mod.scheme = .MOD_ARB → ∀ (mb : modem_s ℝ) (lb : List (Cplx ℝ)),
          modem_arb_balance_iq { mod with symbol_map := some points } = .ok mb →
          mb.symbol_map = some lb → arb_scale_divisor cfg lb mod.M ≠ 0 →
          ∃ sm, (modem_arb_init cfg mod points).mod.symbol_map = some sm
            ∧ sm.length = mod.M ∧ avg_energy mod.M sm = 1)
      ∧ (mod.scheme = .MOD_ARB_MIRRORED ∨ mod.scheme = .MOD_ARB_ROTATED →
          arb_scale_divisor cfg points mod.M ≠ 0 →
          ∃ sm, (modem_arb_init cfg mod points).mod.symbol_map = some sm
            ∧ sm.length = mod.M ∧ avg_energy mod.M sm = 1) := by
  have e := modem_arb_init_eq cfg mod l points hs hl hlen hp
  refine ⟨?_, ?_, ?_⟩
  · by_cases ha : mod.scheme = .MOD_ARB
    · obtain ⟨mb, ms, _, _, h3⟩ := arb_normalize_arb cfg { mod with symbol_map := some points }
        points (arb_init_copy cfg points 0 mod 0).warnings ha rfl hp
      rw [e, h3]
    · obtain ⟨ms, _, h3⟩ := arb_normalize_quadrant cfg { mod with symbol_map := some points }
        points (arb_init_copy cfg points 0 mod 0).warnings ha rfl hp
      rw [e, h3]
  · intro ha mb lb hb hlb hdiv
    have hb' := modem_arb_balance_iq_ok { mod with symbol_map := some points } points rfl hp
    have hlbl : lb.length = mod.M := by
      rw [hb'] at hb
      cases hb
      cases hlb
      simpa using hp
    have hmb : mb = { mod with symbol_map := some lb } := by
      rw [hb'] at hb
      cases hb
      cases hlb
      rfl
    rw [hmb] at hb
    have hsc := modem_arb_scale_divisor cfg { mod with symbol_map := some lb } lb rfl hlbl
    refine ⟨_, ?_, ?_, scaled_unit_energy cfg hsqrt _ mod.M hlbl hM hdiv⟩
    · rw [e]
      unfold arb_normalize
      rw [if_pos ha, hb]
      simp only
      rw [hsc]
    · simpa using hlbl
  · intro hq hdiv
    have ha : mod.scheme ≠ .MOD_ARB := by
      rcases hq with h | h <;> rw [h] <;> decide
    have hsc := modem_arb_scale_divisor cfg { mod with symbol_map := some points } points rfl hp
    refine ⟨_, ?_, ?_, scaled_unit_energy cfg hsqrt points mod.M hp hM hdiv⟩
    · rw [e]
      unfold arb_normalize
      rw [if_neg ha]
      simp only
      rw [hsc]
    · simpa using hp

theorem modem_arb_init_unit_energy_witness :
    ∃ (mod : modem_s ℝ) (l sm : List (Cplx ℝ)),
      modem_create (Config.eightBit Real.pi Real.sqrt) .MOD_ARB_MIRRORED 3 = .ok mod
      ∧ ((Config.eightBit Real.pi Real.sqrt).sqrtf = Real.sqrt
        ∧ (mod.scheme = .MOD_ARB ∨ mod.scheme = .MOD_ARB_MIRRORED
          ∨ mod.scheme = .MOD_ARB_ROTATED)
        ∧ mod.symbol_map = some l ∧ l.length = mod.M
        ∧ [(⟨3, 4⟩ : Cplx ℝ), ⟨4, 3⟩].length = mod.M ∧ 1 ≤ mod.M)
      ∧ (modem_arb_init (Config.eightBit Real.pi Real.sqrt) mod [⟨3, 4⟩, ⟨4, 3⟩]).mod.symbol_map
          = some sm
      ∧ avg_energy mod.M sm = 1 := by
  have hM : shl32 1 3 >>> 2 = 2 := by decide
  have hdiv : arb_scale_divisor (Config.eightBit Real.pi Real.sqrt)
      [(⟨3, 4⟩ : Cplx ℝ), ⟨4, 3⟩] (shl32 1 3 >>> 2) ≠ 0 := by
    intro h0
    have hsq := arb_scale_divisor_sq (Config.eightBit Real.pi Real.sqrt) rfl
      [(⟨3, 4⟩ : Cplx ℝ), ⟨4, 3⟩] 2 rfl
    rw [hM] at h0
    rw [h0] at hsq
    norm_num [Cplx.normSq] at hsq
  obtain ⟨sm, h1, _, h3⟩ := (modem_arb_init_unit_energy (Config.eightBit Real.pi Real.sqrt) rfl
    { modem_alloc (Config.eightBit Real.pi Real.sqrt) .MOD_ARB_MIRRORED with
      m := 3, M := shl32 1 3 >>> 2, symbol_map := calloc_symbol_map (shl32 1 3 >>> 2),
      modulate_func := some .arb, demodulate_func := some .arb }
    (List.replicate (shl32 1 3 >>> 2) (Cplx.ofReal 0)) [⟨3, 4⟩, ⟨4, 3⟩] (Or.inr (Or.inl rfl)) rfl
    (List.length_replicate _ _) (by decide) (by decide)).2.2 (Or.inl rfl) hdiv
  exact ⟨_, _, sm,
    modem_create_arb_mirrored_eq (Config.eightBit Real.pi Real.sqrt) 3 (by decide) (by decide),
    ⟨rfl, Or.inr (Or.inl rfl), rfl, List.length_replicate _ _, by decide, by decide⟩, h1, h3⟩

/-! ## Balance after loading -/

theorem real_sqrt_25 : Real.sqrt 25 = 5 := by
  rw [show (25 : ℝ) = 5 * 5 by norm_num, Real.sqrt_mul_self (by norm_num)]

theorem modem_arb_init_arb_steps (cfg : Config F) (mod : modem_s F)
    (l points lb ls : List (Cplx F)) (ha : mod.scheme = .MOD_ARB)
    (hl : mod.symbol_map = some l) (hlen : l.length = mod.M) (hp : points.length = mod.M)
    (hb : modem_arb_balance_iq { mod with symbol_map := some points }
      = .ok { mod with symbol_map := some lb })
    (hs : modem_arb_scale cfg { mod with symbol_map := some lb }
      = .ok { mod with symbol_map := some ls }) :
    (modem_arb_init cfg mod points).err = none
      ∧ (modem_arb_init cfg mod points).mod.symbol_map = some ls := by
  rw [modem_arb_init_eq cfg mod l points (Or.inl ha) hl hlen hp]
  unfold arb_normalize
  rw [if_pos ha, hb]
  simp only
  rw [hs]
  exact ⟨rfl, rfl⟩

/-- C14 (the code departs from the claim): the accumulator `mean` of `modem_arb_balance_iq` is a
`float`, so the balance step subtracts the mean of the real parts and leaves every imaginary part
as it was. On the two-point modem that `modem_create` returns for `MOD_ARB` and width 1, the
points `3 + 4i` and `-3 + 4i` (complex mean `4i`) pass the balance step unchanged and are loaded
as `3/5 + 4/5 i` and `-3/5 + 4/5 i`, whose mean is `4/5 i`, not zero. -/
theorem modem_arb_init_imaginary_mean :
    ∃ mod : modem_s ℝ, modem_create (Config.eightBit Real.pi Real.sqrt) .MOD_ARB 1 = .ok mod
      ∧ mod.M = 2
      ∧ complex_mean 2 [(⟨3, 4⟩ : Cplx ℝ), ⟨-3, 4⟩] = ⟨0, 4⟩
      ∧ modem_arb_balance_iq { mod with symbol_map := some [⟨3, 4⟩, ⟨-3, 4⟩] }
          = .ok { mod with symbol_map := some [⟨3, 4⟩, ⟨-3, 4⟩] }
      ∧ (modem_arb_init (Config.eightBit Real.pi Real.sqrt) mod [⟨3, 4⟩, ⟨-3, 4⟩]).err = none
      ∧ (modem_arb_init (Config.eightBit Real.pi Real.sqrt) mod [⟨3, 4⟩, ⟨-3, 4⟩]).mod.symbol_map
          = some [⟨3 / 5, 4 / 5⟩, ⟨-3 / 5, 4 / 5⟩]
      ∧ complex_mean 2 [(⟨3 / 5, 4 / 5⟩ : Cplx ℝ), ⟨-3 / 5, 4 / 5⟩] = ⟨0, 4 / 5⟩
      ∧ (complex_mean 2 [(⟨3 / 5, 4 / 5⟩ : Cplx ℝ), ⟨-3 / 5, 4 / 5⟩]).im ≠ 0 := by
  have hM : shl32 1 1 = 2 := by decide
  have hb : modem_arb_balance_iq
      ({ modem_alloc (Config.eightBit Real.pi Real.sqrt) .MOD_ARB with
        m := 1, M := shl32 1 1, symbol_map := some [⟨3, 4⟩, ⟨-3, 4⟩],
        modulate_func := some .arb, demodulate_func := some .arb } : modem_s ℝ)
      = .ok { modem_alloc (Config.eightBit Real.pi Real.sqrt) .MOD_ARB with
        m := 1, M := shl32 1 1, symbol_map := some [⟨3, 4⟩, ⟨-3, 4⟩],
        modulate_func := some .arb, demodulate_func := some .arb } := by
    rw [modem_arb_balance_iq_ok _ [⟨3, 4⟩, ⟨-3, 4⟩] rfl (by decide)]
    simp
  have hs : modem_arb_scale (Config.eightBit Real.pi Real.sqrt)
      ({ modem_alloc (Config.eightBit Real.pi Real.sqrt) .MOD_ARB with
        m := 1, M := shl32 1 1, symbol_map := some [⟨3, 4⟩, ⟨-3, 4⟩],
        modulate_func := some .arb, demodulate_func := some .arb } : modem_s ℝ)
      = .ok { modem_alloc (Config.eightBit Real.pi Real.sqrt) .MOD_ARB with
        m := 1, M := shl32 1 1, symbol_map := some [⟨3 / 5, 4 / 5⟩, ⟨-3 / 5, 4 / 5⟩],
        modulate_func := some .arb, demodulate_func := some .arb } := by
    rw [modem_arb_scale_ok _ _ [⟨3, 4⟩, ⟨-3, 4⟩] rfl (by decide)]
    have hc1 : cabsf (Config.eightBit Real.pi Real.sqrt) (⟨3, 4⟩ : Cplx ℝ) = 5 := by
      unfold cabsf
      show Real.sqrt (3 * 3 + 4 * 4) = 5
      rw [show (3 * 3 + 4 * 4 : ℝ) = 25 by norm_num, real_sqrt_25]
    have hc2 : cabsf (Config.eightBit Real.pi Real.sqrt) (⟨-3, 4⟩ : Cplx ℝ) = 5 := by
      unfold cabsf
      show Real.sqrt (-3 * -3 + 4 * 4) = 5
      rw [show (-3 * -3 + 4 * 4 : ℝ) = 25 by norm_num, real_sqrt_25]
    have he : (Config.eightBit Real.pi Real.sqrt).sqrtf
        ((0 + 5 * 5 + 5 * 5) / ((shl32 1 1 : Nat) : ℝ)) = 5 := by
      show Real.sqrt _ = 5
      rw [hM, show ((0 + 5 * 5 + 5 * 5) / ((2 : Nat) : ℝ)) = 25 by norm_num, real_sqrt_25]
    simp only [List.foldl_cons, List.foldl_nil, hc1, hc2, he, List.map_cons, List.map_nil]
  have hload := modem_arb_init_arb_steps (Config.eightBit Real.pi Real.sqrt)
    { modem_alloc (Config.eightBit Real.pi Real.sqrt) .MOD_ARB with
      m := 1, M := shl32 1 1, symbol_map := calloc_symbol_map (shl32 1 1),
      modulate_func := some .arb, demodulate_func := some .arb }
    (List.replicate (shl32 1 1) (Cplx.ofReal 0)) [⟨3, 4⟩, ⟨-3, 4⟩] [⟨3, 4⟩, ⟨-3, 4⟩]
    [⟨3 / 5, 4 / 5⟩, ⟨-3 / 5, 4 / 5⟩] rfl rfl (List.length_replicate _ _) (by decide) hb hs
  refine ⟨_, modem_create_arb_eq (Config.eightBit Real.pi Real.sqrt) 1 (by decide) (by decide),
    hM, ?_, hb, hload.1, hload.2, ?_, ?_⟩
  · simp only [complex_mean, List.map_cons, List.map_nil, List.sum_cons, List.sum_nil]
    norm_num
  · simp only [complex_mean, List.map_cons, List.map_nil, List.sum_cons, List.sum_nil]
    norm_num
  · simp only [complex_mean, List.map_cons, List.map_nil, List.sum_cons, List.sum_nil]
    norm_num

/-! ## Fixed-width schemes, differential phase, scale factors -/

/-- C15: for a caller-supplied width `b` in `[1, MAX_MOD_BITS_PER_SYMBOL]`, `modem_create` with
`MOD_BPSK` returns a modem with `m = 1`, `M = 2`, and with `MOD_QPSK` (the ceiling being at least
2) a modem with `m = 2`, `M = 4`; neither result depends on `b`, `alpha` stays `0` and no slot of
`ref` is written. -/
theorem modem_create_fixed_width (cfg : Config F) (b : Nat) (h1 : 1 ≤ b)
    (h2 : b ≤ cfg.MAX_MOD_BITS_PER_SYMBOL) :
    (∃ mod : modem_s F, modem_create cfg .MOD_BPSK b = .ok mod
        ∧ mod.m = 1 ∧ mod.M = 2 ∧ mod.alpha = 0 ∧ (∀ r ∈ mod.ref, r = none)
        ∧ ∀ b', 1 ≤ b' → b' ≤ cfg.MAX_MOD_BITS_PER_SYMBOL →
            modem_create cfg .MOD_BPSK b' = .ok mod)
      ∧ (2 ≤ cfg.MAX_MOD_BITS_PER_SYMBOL →
          ∃ mod : modem_s F, modem_create cfg .MOD_QPSK b = .ok mod
            ∧ mod.m = 2 ∧ mod.M = 4 ∧ mod.alpha = 0 ∧ (∀ r ∈ mod.ref, r = none)
            ∧ ∀ b', 1 ≤ b' → b' ≤ cfg.MAX_MOD_BITS_PER_SYMBOL →
                modem_create cfg .MOD_QPSK b' = .ok mod) := by
  constructor
  · refine ⟨_, (modem_create_dispatch cfg .MOD_BPSK b h1 h2).trans
      (modem_create_bpsk_eq cfg (by omega)), rfl, shl32_one 1 (by decide), rfl, ?_, ?_⟩
    · intro r hr
      exact (List.mem_replicate.1 hr).2
    · intro b' hb1 hb2
      exact (modem_create_dispatch cfg .MOD_BPSK b' hb1 hb2).trans
        (modem_create_bpsk_eq cfg (by omega))
  · intro hmax
    refine ⟨_, (modem_create_dispatch cfg .MOD_QPSK b h1 h2).trans
      (modem_create_qpsk_eq cfg hmax), rfl, shl32_one 2 (by decide), rfl, ?_, ?_⟩
    · intro r hr
      exact (List.mem_replicate.1 hr).2
    · intro b' hb1 hb2
      exact (modem_create_dispatch cfg .MOD_QPSK b' hb1 hb2).trans
        (modem_create_qpsk_eq cfg hmax)

theorem modem_create_fixed_width_witness :
    (1 ≤ 7 ∧ 7 ≤ Config.sample.MAX_MOD_BITS_PER_SYMBOL)
      ∧ ∃ mod : modem_s ℚ, modem_create Config.sample .MOD_QPSK 7 = .ok mod
        ∧ mod.m = 2 ∧ mod.M = 4 ∧ mod.alpha = 0 :=
  ⟨⟨by decide, by decide⟩,
    ((modem_create_fixed_width Config.sample 7 (by decide) (by decide)).2 (by decide)).imp
      fun _ h => ⟨h.1, h.2.1, h.2.2.1, h.2.2.2.1⟩⟩

/-- C16: for `m` in `[1, MAX_MOD_BITS_PER_SYMBOL]`, `modem_create` with `MOD_DPSK` returns a modem
with the same `m`, `M`, `alpha`, `d_phi` and `ref` as the one it returns with `MOD_PSK`, and with
`state = 1 + 0i` and `state_theta = 0`. -/
theorem modem_create_dpsk_as_psk (cfg : Config F) (m : Nat) (h1 : 1 ≤ m)
    (h2 : m ≤ cfg.MAX_MOD_BITS_PER_SYMBOL) :
    ∃ p d : modem_s F, modem_create cfg .MOD_PSK m = .ok p ∧ modem_create cfg .MOD_DPSK m = .ok d
      ∧ d.m = p.m ∧ d.M = p.M ∧ d.alpha = p.alpha ∧ d.d_phi = p.d_phi ∧ d.ref = p.ref
      ∧ d.state = ⟨1, 0⟩ ∧ d.state_theta = 0 :=
  ⟨_, _, (modem_create_dispatch cfg .MOD_PSK m h1 h2).trans (modem_create_psk_eq cfg m h1 h2),
    (modem_create_dispatch cfg .MOD_DPSK m h1 h2).trans (modem_create_dpsk_eq cfg m h1 h2),
    rfl, rfl, rfl, rfl, rfl, rfl, rfl⟩

theorem modem_create_dpsk_as_psk_witness :
    (1 ≤ 3 ∧ 3 ≤ Config.sample.MAX_MOD_BITS_PER_SYMBOL)
      ∧ ∃ p d : modem_s ℚ, modem_create Config.sample .MOD_PSK 3 = .ok p
        ∧ modem_create Config.sample .MOD_DPSK 3 = .ok d
        ∧ d.m = p.m ∧ d.M = p.M ∧ d.alpha = p.alpha ∧ d.d_phi = p.d_phi ∧ d.ref = p.ref
        ∧ d.state = ⟨1, 0⟩ ∧ d.state_theta = 0 :=
  ⟨⟨by decide, by decide⟩, modem_create_dpsk_as_psk Config.sample 3 (by decide) (by decide)⟩

theorem modem_create_ask_alpha (cfg : Config F) (b : Nat) (h1 : 1 ≤ b)
    (h2 : b ≤ cfg.MAX_MOD_BITS_PER_SYMBOL) :
    ∃ mod : modem_s F, modem_create_ask cfg b = .ok mod ∧ mod.M = shl32 1 b
      ∧ mod.alpha = if shl32 1 b = 2 then cfg.ASK2_ALPHA
        else if shl32 1 b = 4 then cfg.ASK4_ALPHA
        else if shl32 1 b = 8 then cfg.ASK8_ALPHA
        else if shl32 1 b = 16 then cfg.ASK16_ALPHA
        else if shl32 1 b = 32 then cfg.ASK32_ALPHA
        else cfg.sqrtf 3 / (shl32 1 b : Nat) := by
  simp [modem_create_ask, modem_init_ok cfg _ b h1 h2, bind, Except.bind, modem_alloc]

theorem modem_create_qam_alpha (cfg : Config F) (b : Nat) (h1 : 1 ≤ b)
    (h2 : b ≤ cfg.MAX_MOD_BITS_PER_SYMBOL) (h3 : b < 32) :
    ∃ mod : modem_s F, modem_create_qam cfg b = .ok mod ∧ mod.M = shl32 1 b
      ∧ mod.alpha = if shl32 1 b = 4 then cfg.RQAM4_ALPHA
        else if shl32 1 b = 8 then cfg.RQAM8_ALPHA
        else if shl32 1 b = 16 then cfg.RQAM16_ALPHA
        else if shl32 1 b = 32 then cfg.RQAM32_ALPHA
        else if shl32 1 b = 64 then cfg.RQAM64_ALPHA
        else if shl32 1 b = 128 then cfg.RQAM128_ALPHA
        else if shl32 1 b = 256 then cfg.RQAM256_ALPHA
        else if shl32 1 b = 512 then cfg.RQAM512_ALPHA
        else if shl32 1 b = 1024 then cfg.RQAM1024_ALPHA
        else if shl32 1 b = 2048 then cfg.RQAM2048_ALPHA
        else if shl32 1 b = 4096 then cfg.RQAM4096_ALPHA
        else cfg.sqrtf (2 / (shl32 1 b : Nat)) := by
  have h1' : ¬ b < 1 := by omega
  have e : ((b + 1) / 2 + b / 2) % UINT_SIZE = b := by unfold UINT_SIZE; omega
  simp [modem_create_qam, modem_init_ok cfg _ b h1 h2, bind, Except.bind, modem_alloc, h1',
    qam_split_eq b h1 h3, qam_sizes b h3, e]

/-- C17: for `m` in `[1, MAX_MOD_BITS_PER_SYMBOL]`, `modem_create` with `MOD_ASK` sets `alpha` to
the constant tabulated for `M` when `M` is 2, 4, 8, 16 or 32 and to `sqrtf(3) / M` otherwise;
with `MOD_QAM` it sets `alpha` to the constant tabulated for `M` when `M` is 4, 8, ..., 4096 and
to `sqrtf(2 / M)` otherwise, so to `sqrtf(2 / 2)` for `m = 1`. The width ceiling is below the
word size. -/
theorem modem_create_scale_selection (cfg : Config F) (m : Nat) (h1 : 1 ≤ m)
    (h2 : m ≤ cfg.MAX_MOD_BITS_PER_SYMBOL) (hmax : cfg.MAX_MOD_BITS_PER_SYMBOL < 32) :
    (∃ mod : modem_s F, modem_create cfg .MOD_ASK m = .ok mod ∧ mod.M = 2 ^ m
        ∧ (mod.M = 2 → mod.alpha = cfg.ASK2_ALPHA)
        ∧ (mod.M = 4 → mod.alpha = cfg.ASK4_ALPHA)
        ∧ (mod.M = 8 → mod.alpha = cfg.ASK8_ALPHA)
        ∧ (mod.M = 16 → mod.alpha = cfg.ASK16_ALPHA)
        ∧ (mod.M = 32 → mod.alpha = cfg.ASK32_ALPHA)
        ∧ (mod.M ∉ [2, 4, 8, 16, 32] → mod.alpha = cfg.sqrtf 3 / (mod.M : F)))
      ∧ (∃ mod : modem_s F, modem_create cfg .MOD_QAM m = .ok mod ∧ mod.M = 2 ^ m
        ∧ (mod.M = 4 → mod.alpha = cfg.RQAM4_ALPHA)
        ∧ (mod.M = 8 → mod.alpha = cfg.RQAM8_ALPHA)
        ∧ (mod.M = 16 → mod.alpha = cfg.RQAM16_ALPHA)
        ∧ (mod.M = 32 → mod.alpha = cfg.RQAM32_ALPHA)
        ∧ (mod.M = 64 → mod.alpha = cfg.RQAM64_ALPHA)
        ∧ (mod.M = 128 → mod.alpha = cfg.RQAM128_ALPHA)
        ∧ (mod.M = 256 → mod.alpha = cfg.RQAM256_ALPHA)
        ∧ (mod.M = 512 → mod.alpha = cfg.RQAM512_ALPHA)
        ∧ (mod.M = 1024 → mod.alpha = cfg.RQAM1024_ALPHA)
        ∧ (mod.M = 2048 → mod.alpha = cfg.RQAM2048_ALPHA)
        ∧ (mod.M = 4096 → mod.alpha = cfg.RQAM4096_ALPHA)
        ∧ (mod.M ∉ [4, 8, 16, 32, 64, 128, 256, 512, 1024, 2048, 4096] →
            mod.alpha = cfg.sqrtf (2 / (mod.M : F)))
        ∧ (m = 1 → mod.M = 2 ∧ mod.alpha = cfg.sqrtf (2 / 2))) := by
  have hb : m < 32 := by omega
  constructor
  · obtain ⟨mod, hc, hM, ha⟩ := modem_create_ask_alpha cfg m h1 h2
    refine ⟨mod, (modem_create_dispatch cfg .MOD_ASK m h1 h2).trans hc,
      hM.trans (shl32_one m hb), ?_, ?_, ?_, ?_, ?_, ?_⟩ <;> rw [ha, ← hM] <;> intro h
    · simp [h]
    · simp [h]
    · simp [h]
    · simp [h]
    · simp [h]
    · simp only [List.mem_cons, List.mem_singleton, List.not_mem_nil, or_false, not_or] at h
      simp [h]
  · obtain ⟨mod, hc, hM, ha⟩ := modem_create_qam_alpha cfg m h1 h2 hb
    refine ⟨mod, (modem_create_dispatch cfg .MOD_QAM m h1 h2).trans hc,
      hM.trans (shl32_one m hb), ?_, ?_, ?_, ?_, ?_, ?_, ?_, ?_, ?_, ?_, ?_, ?_, ?_⟩
    case refine_13 =>
      rintro rfl
      have hM2 : mod.M = 2 := hM.trans (shl32_one 1 (by decide))
      refine ⟨hM2, ?_⟩
      rw [ha, ← hM, hM2]
      simp
    all_goals rw [ha, ← hM]; intro h
    · simp [h]
    · simp [h]
    · simp [h]
    · simp [h]
    · simp [h]
    · simp [h]
    · simp [h]
    · simp [h]
    · simp [h]
    · simp [h]
    · simp [h]
    · simp only [List.mem_cons, List.mem_singleton, List.not_mem_nil, or_false, not_or] at h
      simp [h]

theorem modem_create_scale_selection_witness :
    (1 ≤ 1 ∧ 1 ≤ Config.sample.MAX_MOD_BITS_PER_SYMBOL
        ∧ Config.sample.MAX_MOD_BITS_PER_SYMBOL < 32)
      ∧ ∃ mod : modem_s ℚ, modem_create Config.sample .MOD_QAM 1 = .ok mod
        ∧ mod.M = 2 ∧ mod.alpha = Config.sample.sqrtf (2 / 2) :=
  ⟨⟨by decide, by decide, by decide⟩,
    (modem_create_scale_selection Config.sample 1 (by decide) (by decide) (by decide)).2.imp
      fun _ h => ⟨h.1, h.2.2.2.2.2.2.2.2.2.2.2.2.2.2 rfl⟩⟩

/-! ## Empty symbol map and scheme of the returned modem -/

/-- C18: for `m` in `[1, MAX_MOD_BITS_PER_SYMBOL]`, `modem_create` with `MOD_ARB`,
`MOD_ARB_MIRRORED` or `MOD_ARB_ROTATED` returns a modem whose `symbol_map` has exactly `M`
entries, all `0 + 0i`, with `M = 2 ^ m` for `MOD_ARB` and `M = 2 ^ m / 4` for the other two. The
width ceiling is below the word size. -/
theorem modem_create_arb_symbol_map (cfg : Config F) (scheme : modulation_scheme) (m : Nat)
    (hs : scheme = .MOD_ARB ∨ scheme = .MOD_ARB_MIRRORED ∨ scheme = .MOD_ARB_ROTATED)
    (h1 : 1 ≤ m) (h2 : m ≤ cfg.MAX_MOD_BITS_PER_SYMBOL)
    (hmax : cfg.MAX_MOD_BITS_PER_SYMBOL < 32) :
    ∃ (mod : modem_s F) (sm : List (Cplx F)), modem_create cfg scheme m = .ok mod
      ∧ mod.symbol_map = some sm ∧ sm.length = mod.M ∧ (∀ z ∈ sm, z = ⟨0, 0⟩)
      ∧ (scheme = .MOD_ARB → mod.M = 2 ^ m)
      ∧ (scheme = .MOD_ARB_MIRRORED ∨ scheme = .MOD_ARB_ROTATED → mod.M = 2 ^ m / 4) := by
  have hb : m < 32 := by omega
  have hz : ∀ (n : Nat) (z : Cplx F), z ∈ List.replicate n (Cplx.ofReal (0 : F)) → z = ⟨0, 0⟩ :=
    fun n z hz => (List.mem_replicate.1 hz).2
  have hq : shl32 1 m >>> 2 = 2 ^ m / 4 := by
    rw [shl32_one m hb, Nat.shiftRight_eq_div_pow]
  rcases hs with rfl | rfl | rfl
  · exact ⟨_, _, (modem_create_dispatch cfg _ m h1 h2).trans (modem_create_arb_eq cfg m h1 h2),
      rfl, List.length_replicate _ _, hz _, fun _ => shl32_one m hb,
      fun h => absurd h (by decide)⟩
  · exact ⟨_, _, (modem_create_dispatch cfg _ m h1 h2).trans
      (modem_create_arb_mirrored_eq cfg m h1 h2),
      rfl, List.length_replicate _ _, hz _, fun h => absurd h (by decide), fun _ => hq⟩
  · exact ⟨_, _, (modem_create_dispatch cfg _ m h1 h2).trans
      (modem_create_arb_rotated_eq cfg m h1 h2),
      rfl, List.length_replicate _ _, hz _, fun h => absurd h (by decide), fun _ => hq⟩

theorem modem_create_arb_symbol_map_witness :
    ((modulation_scheme.MOD_ARB_ROTATED = .MOD_ARB
          ∨ modulation_scheme.MOD_ARB_ROTATED = .MOD_ARB_MIRRORED
          ∨ modulation_scheme.MOD_ARB_ROTATED = .MOD_ARB_ROTATED)
        ∧ 1 ≤ 4 ∧ 4 ≤ Config.sample.MAX_MOD_BITS_PER_SYMBOL
        ∧ Config.sample.MAX_MOD_BITS_PER_SYMBOL < 32)
      ∧ ∃ (mod : modem_s ℚ) (sm : List (Cplx ℚ)),
        modem_create Config.sample .MOD_ARB_ROTATED 4 = .ok mod
        ∧ mod.symbol_map = some sm ∧ sm.length = mod.M ∧ (∀ z ∈ sm, z = ⟨0, 0⟩)
        ∧ mod.M = 2 ^ 4 / 4 := by
  refine ⟨⟨Or.inr (Or.inr rfl), by decide, by decide, by decide⟩, ?_⟩
  obtain ⟨mod, sm, h1, h2, h3, h4, _, h6⟩ := modem_create_arb_symbol_map Config.sample
    .MOD_ARB_ROTATED 4 (Or.inr (Or.inr rfl)) (by decide) (by decide) (by decide)
  exact ⟨mod, sm, h1, h2, h3, h4, h6 (Or.inr rfl)⟩

theorem bind_eq_ok {α β : Type} {x : Except ModemError α} {f : α → Except ModemError β} {b : β}
    (h : (x >>= f) = .ok b) : ∃ a, x = .ok a ∧ f a = .ok b := by
  cases x with
  | error e => cases h
  | ok a => exact ⟨a, rfl, h⟩

theorem ite_error_eq_ok {α : Type} {c : Prop} [Decidable c] {e : ModemError}
    {y : Except ModemError α} {b : α} (h : (if c then Except.error e else y) = .ok b) :
    y = .ok b := by
  split at h
  · cases h
  · exact h

theorem modem_init_scheme (cfg : Config F) (mod0 mod : modem_s F) (b : Nat)
    (h : modem_init cfg mod0 b = .ok mod) : mod.scheme = mod0.scheme := by
  unfold modem_init at h
  have h' := ite_error_eq_ok (ite_error_eq_ok h)
  cases h'
  rfl

theorem modem_create_qam_scheme (cfg : Config F) (b : Nat) (mod : modem_s F)
    (h : modem_create_qam cfg b = .ok mod) : mod.scheme = .MOD_QAM := by
  unfold modem_create_qam at h
  obtain ⟨a, ha, hf⟩ := bind_eq_ok (ite_error_eq_ok h)
  have h' := ite_error_eq_ok (ite_error_eq_ok hf)
  cases h'
  exact modem_init_scheme cfg _ a b ha

/-- C19: a modem that `modem_create` returns for a scheme tag other than `MOD_APSK` has that tag
as its `scheme`; for `MOD_APSK` a modem is returned only for width 4, 5 or 6 and its `scheme` is
`MOD_APSK16`, `MOD_APSK32` or `MOD_APSK64` respectively. -/
theorem modem_create_scheme (cfg : Config F) (scheme : modulation_scheme) (b : Nat)
    (mod : modem_s F) (h : modem_create cfg scheme b = .ok mod) :
    (scheme ≠ .MOD_APSK → mod.scheme = scheme)
      ∧ (scheme = .MOD_APSK →
          (b = 4 ∨ b = 5 ∨ b = 6) ∧ (b = 4 → mod.scheme = .MOD_APSK16)
            ∧ (b = 5 → mod.scheme = .MOD_APSK32) ∧ (b = 6 → mod.scheme = .MOD_APSK64)) := by
  obtain ⟨h1, h2⟩ := modem_create_in_range cfg scheme b mod h
  rw [modem_create_dispatch cfg scheme b h1 h2] at h
  cases scheme <;> simp only at h
  case MOD_PSK =>
    rw [modem_create_psk_eq cfg b h1 h2] at h
    cases h
    exact ⟨fun _ => rfl, fun h => absurd h (by decide)⟩
  case MOD_DPSK =>
    rw [modem_create_dpsk_eq cfg b h1 h2] at h
    cases h
    exact ⟨fun _ => rfl, fun h => absurd h (by decide)⟩
  case MOD_ASK =>
    obtain ⟨alpha, e⟩ := modem_create_ask_eq cfg b h1 h2
    rw [e] at h
    cases h
    exact ⟨fun _ => rfl, fun h => absurd h (by decide)⟩
  case MOD_QAM =>
    exact ⟨fun _ => modem_create_qam_scheme cfg b mod h, fun h => absurd h (by decide)⟩
  case MOD_APSK =>
    refine ⟨fun hne => absurd rfl hne, fun _ => ?_⟩
    rcases modem_create_apsk_inv cfg b mod h with ⟨rfl, e⟩ | ⟨rfl, e⟩ | ⟨rfl, e⟩
    · rw [modem_create_apsk16_eq cfg (modem_create_apsk16_inv cfg 4 mod e).2] at e
      cases e
      exact ⟨Or.inl rfl, fun _ => rfl, fun h => absurd h (by decide),
        fun h => absurd h (by decide)⟩
    · rw [modem_create_apsk32_eq cfg (modem_create_apsk32_inv cfg 5 mod e).2] at e
      cases e
      exact ⟨Or.inr (Or.inl rfl), fun h => absurd h (by decide), fun _ => rfl,
        fun h => absurd h (by decide)⟩
    · rw [modem_create_apsk64_eq cfg (modem_create_apsk64_inv cfg 6 mod e).2] at e
      cases e
      exact ⟨Or.inr (Or.inr rfl), fun h => absurd h (by decide), fun h => absurd h (by decide),
        fun _ => rfl⟩
  case MOD_ARB =>
    rw [modem_create_arb_eq cfg b h1 h2] at h
    cases h
    exact ⟨fun _ => rfl, fun h => absurd h (by decide)⟩
  case MOD_ARB_MIRRORED =>
    rw [modem_create_arb_mirrored_eq cfg b h1 h2] at h
    cases h
    exact ⟨fun _ => rfl, fun h => absurd h (by decide)⟩
  case MOD_ARB_ROTATED =>
    rw [modem_create_arb_rotated_eq cfg b h1 h2] at h
    cases h
    exact ⟨fun _ => rfl, fun h => absurd h (by decide)⟩
  case MOD_BPSK =>
    rw [modem_create_bpsk_eq cfg (by omega)] at h
    cases h
    exact ⟨fun _ => rfl, fun h => absurd h (by decide)⟩
  case MOD_QPSK =>
    rw [modem_create_qpsk_eq cfg (modem_create_qpsk_inv cfg mod h)] at h
    cases h
    exact ⟨fun _ => rfl, fun h => absurd h (by decide)⟩
  case MOD_APSK16 =>
    obtain ⟨e4, e⟩ := modem_create_apsk16_inv cfg b mod h
    subst e4
    rw [modem_create_apsk16_eq cfg e] at h
    cases h
    exact ⟨fun _ => rfl, fun h => absurd h (by decide)⟩
  case MOD_APSK32 =>
    obtain ⟨e4, e⟩ := modem_create_apsk32_inv cfg b mod h
    subst e4
    rw [modem_create_apsk32_eq cfg e] at h
    cases h
    exact ⟨fun _ => rfl, fun h => absurd h (by decide)⟩
  case MOD_APSK64 =>
    obtain ⟨e4, e⟩ := modem_create_apsk64_inv cfg b mod h
    subst e4
    rw [modem_create_apsk64_eq cfg e] at h
    cases h
    exact ⟨fun _ => rfl, fun h => absurd h (by decide)⟩
  case unrecognized => cases h

theorem modem_create_scheme_witness :
    ∃ mod : modem_s ℚ, modem_create Config.sample .MOD_APSK 5 = .ok mod
      ∧ mod.scheme = .MOD_APSK32 :=
  ⟨_, modem_create_apsk32_eq Config.sample (by decide),
    ((modem_create_scheme Config.sample .MOD_APSK 5 _
      (modem_create_apsk32_eq Config.sample (by decide))).2 rfl).2.2.1 rfl⟩

/-! ## Quadrant warnings -/

theorem arb_normalize_warnings (cfg : Config F) (mod : modem_s F) (w : Nat) :
    (arb_normalize cfg mod w).warnings = w := by
  unfold arb_normalize
  split
  · rfl
  · split <;> rfl

theorem arb_normalize_mod (cfg : Config F) (mod : modem_s F) (w w' : Nat) :
    (arb_normalize cfg mod w).mod = (arb_normalize cfg mod w').mod
      ∧ (arb_normalize cfg mod w).err = (arb_normalize cfg mod w').err := by
  unfold arb_normalize
  split
  · exact ⟨rfl, rfl⟩
  · split <;> exact ⟨rfl, rfl⟩

/-- C20 (the code departs from the claim): the quadrant test of `modem_arb_init` is `<= 0`, that
of `modem_arb_init_file` is `< 0`. On the one-point modem that `modem_create` returns for
`MOD_ARB_MIRRORED` and width 2, the point `0 + 1i`, whose parts are both non-negative, loads
without failure and to the same `symbol_map` through both loaders, but `modem_arb_init` prints
the warning and `modem_arb_init_file` does not. -/
theorem modem_arb_init_axis_warning :
    ∃ mod : modem_s ℚ, modem_create Config.sample .MOD_ARB_MIRRORED 2 = .ok mod ∧ mod.M = 1
      ∧ (modem_arb_init Config.sample mod [⟨0, 1⟩]).err = none
      ∧ (modem_arb_init_file Config.sample mod (some [.num 0, .num 1]) 0 0).err = none
      ∧ (modem_arb_init Config.sample mod [⟨0, 1⟩]).mod.symbol_map
          = (modem_arb_init_file Config.sample mod (some [.num 0, .num 1]) 0 0).mod.symbol_map
      ∧ (modem_arb_init Config.sample mod [⟨0, 1⟩]).warnings = 1
      ∧ (modem_arb_init_file Config.sample mod (some [.num 0, .num 1]) 0 0).warnings = 0 := by
  have hM : shl32 1 2 >>> 2 = 1 := by decide
  have hv : Config.sample.LIQUID_VALIDATE_INPUT = true := rfl
  have hinit := modem_arb_init_eq Config.sample
    { modem_alloc Config.sample .MOD_ARB_MIRRORED with
      m := 2, M := shl32 1 2 >>> 2, symbol_map := calloc_symbol_map (shl32 1 2 >>> 2),
      modulate_func := some .arb, demodulate_func := some .arb }
    (List.replicate (shl32 1 2 >>> 2) (Cplx.ofReal 0)) [⟨0, 1⟩] (Or.inr (Or.inl rfl)) rfl
    (List.length_replicate _ _) (by decide)
  have hw : (arb_init_copy Config.sample [⟨0, 1⟩] 0
      ({ modem_alloc Config.sample .MOD_ARB_MIRRORED with
        m := 2, M := shl32 1 2 >>> 2, symbol_map := calloc_symbol_map (shl32 1 2 >>> 2),
        modulate_func := some .arb, demodulate_func := some .arb } : modem_s ℚ) 0).warnings
      = 1 := by
    simp [arb_init_copy, symbol_map_store, calloc_symbol_map, hM, modem_alloc, hv]
  have hfile : modem_arb_init_file Config.sample
      ({ modem_alloc Config.sample .MOD_ARB_MIRRORED with
        m := 2, M := shl32 1 2 >>> 2, symbol_map := calloc_symbol_map (shl32 1 2 >>> 2),
        modulate_func := some .arb, demodulate_func := some .arb } : modem_s ℚ)
      (some [.num 0, .num 1]) 0 0
      = arb_normalize Config.sample
        { modem_alloc Config.sample .MOD_ARB_MIRRORED with
          m := 2, M := shl32 1 2 >>> 2, symbol_map := some [⟨0, 1⟩],
          modulate_func := some .arb, demodulate_func := some .arb } 0 := by
    have h10 : ¬ (1 : ℚ) < 0 := by norm_num
    simp [modem_arb_init_file, arb_init_file_loop, fscanf_pair, symbol_map_store,
      calloc_symbol_map, hM, modem_alloc, hv, h10]
  obtain ⟨ms, _, hn⟩ := arb_normalize_quadrant Config.sample
    ({ modem_alloc Config.sample .MOD_ARB_MIRRORED with
      m := 2, M := shl32 1 2 >>> 2, symbol_map := some [⟨0, 1⟩],
      modulate_func := some .arb, demodulate_func := some .arb } : modem_s ℚ) [⟨0, 1⟩] 0
    (by decide) rfl (by decide)
  refine ⟨_, modem_create_arb_mirrored_eq Config.sample 2 (by decide) (by decide), hM,
    ?_, ?_, ?_, ?_, ?_⟩
  · rw [hinit, (arb_normalize_mod _ _ _ 0).2]
    exact (congrArg LoadResult.err hn)
  · rw [hfile]
    exact (congrArg LoadResult.err hn)
  · rw [hinit, hfile, (arb_normalize_mod _ _ _ 0).1]
  · rw [hinit, arb_normalize_warnings]
    exact hw
  · rw [hfile, arb_normalize_warnings]

/-! ## What the balance step does -/

theorem foldl_re (l : List (Cplx F)) (a : F) :
    l.foldl (fun mean z => mean + z.re) a = a + (l.map Cplx.re).sum := by
  induction l generalizing a with
  | nil => simp
  | cons z zs ih =>
    simp only [List.foldl_cons, List.map_cons, List.sum_cons]
    rw [ih]
    ring

theorem sum_re_sub (l : List (Cplx F)) (mu : F) :
    ((l.map fun z => (⟨z.re - mu, z.im⟩ : Cplx F)).map Cplx.re).sum
      = (l.map Cplx.re).sum - l.length * mu := by
  induction l with
  | nil => simp
  | cons z zs ih =>
    simp only [List.map_cons, List.sum_cons, List.length_cons, ih]
    push_cast
    ring

/-- C23: `modem_arb_balance_iq` on a `symbol_map` of `M ≥ 1` points returns normally, leaves the
imaginary part of every point as it was, subtracts from every real part the arithmetic mean of
the `M` real parts, and leaves real parts that sum to zero (exact arithmetic, over every ordered
field and so over the reals). -/
theorem modem_arb_balance_iq_real_parts (mod : modem_s F) (l : List (Cplx F))
    (hl : mod.symbol_map = some l) (hlen : l.length = mod.M) (hM : 1 ≤ mod.M) :
    ∃ (mb : modem_s F) (lb : List (Cplx F)), modem_arb_balance_iq mod = .ok mb
      ∧ mb.symbol_map = some lb ∧ lb.length = mod.M
      ∧ (∀ i, i < mod.M → ∃ z w, l[i]? = some z ∧ lb[i]? = some w
          ∧ w.im = z.im ∧ w.re = z.re - (l.map Cplx.re).sum / (mod.M : F))
      ∧ (lb.map Cplx.re).sum = 0 := by
  have hb := modem_arb_balance_iq_ok mod l hl hlen
  rw [foldl_re, zero_add] at hb
  refine ⟨_, _, hb, rfl, by simpa using hlen, ?_, ?_⟩
  · intro i hi
    have hi' : i < l.length := by omega
    refine ⟨l[i], ⟨l[i].re - (l.map Cplx.re).sum / (mod.M : F), l[i].im⟩, ?_, ?_, rfl, rfl⟩
    · exact List.getElem?_eq_getElem hi'
    · simp [List.getElem?_eq_getElem hi']
  · rw [sum_re_sub, hlen]
    have hMr : (mod.M : F) ≠ 0 := by exact_mod_cast (by omega : mod.M ≠ 0)
    field_simp

theorem modem_arb_balance_iq_real_parts_witness :
    ∃ mod : modem_s ℚ, modem_create Config.sample .MOD_ARB 1 = .ok mod
      ∧ (({ mod with symbol_map := some [⟨3, 4⟩, ⟨-1, 4⟩] } : modem_s ℚ).symbol_map
            = some [⟨3, 4⟩, ⟨-1, 4⟩]
        ∧ [(⟨3, 4⟩ : Cplx ℚ), ⟨-1, 4⟩].length = mod.M ∧ 1 ≤ mod.M)
      ∧ ∃ (mb : modem_s ℚ) (lb : List (Cplx ℚ)),
        modem_arb_balance_iq { mod with symbol_map := some [⟨3, 4⟩, ⟨-1, 4⟩] } = .ok mb
          ∧ mb.symbol_map = some lb ∧ (lb.map Cplx.re).sum = 0 := by
  refine ⟨_, modem_create_arb_eq Config.sample 1 (by decide) (by decide),
    ⟨rfl, by decide, by decide⟩, ?_⟩
  obtain ⟨mb, lb, h1, h2, _, _, h5⟩ := modem_arb_balance_iq_real_parts
    ({ modem_alloc Config.sample .MOD_ARB with
      m := 1, M := shl32 1 1, symbol_map := some [⟨3, 4⟩, ⟨-1, 4⟩],
      modulate_func := some .arb, demodulate_func := some .arb } : modem_s ℚ)
    [⟨3, 4⟩, ⟨-1, 4⟩] rfl (by decide) (by decide)
  exact ⟨mb, lb, h1, h2, h5⟩

/-! ## The two loaders on the same points -/

theorem arb_init_file_loop_source (cfg : Config F) (pts pre rest : List (Cplx F))
    (mod : modem_s F) (w : Nat) (sym_i sym_q : F) (hl : mod.symbol_map = some (pre ++ rest))
    (hlen : pts.length ≤ rest.length) :
    (arb_init_file_loop cfg pts.length pre.length (pairs_source pts) sym_i sym_q mod w).err = none
      ∧ (arb_init_file_loop cfg pts.length pre.length (pairs_source pts) sym_i sym_q mod w).mod
          = { mod with symbol_map := some (pre ++ pts ++ rest.drop pts.length) } := by
  induction pts generalizing pre rest mod w sym_i sym_q with
  | nil =>
    simp only [arb_init_file_loop, List.length_nil, List.append_nil, List.drop_zero, true_and]
    rw [← hl]
  | cons z zs ih =>
    cases rest with
    | nil => simp at hlen
    | cons r rs =>
      simp only [List.length_cons, pairs_source]
      unfold arb_init_file_loop
      simp only [fscanf_pair, hl, symbol_map_store_append, lt_irrefl, if_false]
      have h := ih (pre ++ [z]) rs { mod with symbol_map := some (pre ++ z :: rs) }
        (if cfg.LIQUID_VALIDATE_INPUT
          ∧ (mod.scheme = .MOD_ARB_MIRRORED ∨ mod.scheme = .MOD_ARB_ROTATED)
          ∧ (z.re < 0 ∨ z.im < 0) then w + 1 else w) z.re z.im (by simp)
        (by simpa using hlen)
      simp only [List.length_append, List.length_singleton] at h
      refine ⟨h.1, ?_⟩
      rw [h.2]
      simp

theorem modem_arb_init_file_eq (cfg : Config F) (mod : modem_s F) (l points : List (Cplx F))
    (sym_i sym_q : F) (hl : mod.symbol_map = some l) (hlen : l.length = mod.M)
    (hp : points.length = mod.M) :
    modem_arb_init_file cfg mod (some (pairs_source points)) sym_i sym_q
      = arb_normalize cfg { mod with symbol_map := some points }
          (arb_init_file_loop cfg mod.M 0 (pairs_source points) sym_i sym_q mod 0).warnings := by
  have h := arb_init_file_loop_source cfg points [] l mod 0 sym_i sym_q (by simpa using hl)
    (by omega)
  simp only [List.length_nil, List.nil_append] at h
  rw [hp.trans hlen.symm, List.drop_length, List.append_nil, hlen] at h
  unfold modem_arb_init_file
  simp only [h.1, h.2]

/-- C22: on a modem of an arbitrary scheme whose `symbol_map` holds `M` points, and a source
that holds exactly `M` pairs, `modem_arb_init_file` returns normally and leaves the same modem,
so the same `symbol_map`, as `modem_arb_init` called with those `M` points `real + i*imaginary`
in the same order, whatever the two locals held on entry. -/
theorem modem_arb_init_file_agrees (cfg : Config F) (mod : modem_s F)
    (l points : List (Cplx F)) (sym_i sym_q : F)
    (hs : mod.scheme = .MOD_ARB ∨ mod.scheme = .MOD_ARB_MIRRORED ∨ mod.scheme = .MOD_ARB_ROTATED)
    (hl : mod.symbol_map = some l) (hlen : l.length = mod.M) (hp : points.length = mod.M) :
    (modem_arb_init_file cfg mod (some (pairs_source points)) sym_i sym_q).err = none
      ∧ (modem_arb_init cfg mod points).err = none
      ∧ (modem_arb_init_file cfg mod (some (pairs_source points)) sym_i sym_q).mod
          = (modem_arb_init cfg mod points).mod
      ∧ (modem_arb_init_file cfg mod (some (pairs_source points)) sym_i sym_q).mod.symbol_map
          = (modem_arb_init cfg mod points).mod.symbol_map := by
  have e1 := modem_arb_init_file_eq cfg mod l points sym_i sym_q hl hlen hp
  have e2 := modem_arb_init_eq cfg mod l points hs hl hlen hp
  have hn : (arb_normalize cfg { mod with symbol_map := some points } 0).err = none := by
    by_cases ha : mod.scheme = .MOD_ARB
    · obtain ⟨mb, ms, _, _, h3⟩ := arb_normalize_arb cfg { mod with symbol_map := some points }
        points 0 ha rfl hp
      rw [h3]
    · obtain ⟨ms, _, h3⟩ := arb_normalize_quadrant cfg { mod with symbol_map := some points }
        points 0 ha rfl hp
      rw [h3]
  refine ⟨?_, ?_, ?_, ?_⟩
  · rw [e1, (arb_normalize_mod _ _ _ 0).2, hn]
  · rw [e2, (arb_normalize_mod _ _ _ 0).2, hn]
  · rw [e1, e2, (arb_normalize_mod _ _ _ 0).1, (arb_normalize_mod cfg _
      (arb_init_copy cfg points 0 mod 0).warnings 0).1]
  · rw [e1, e2, (arb_normalize_mod _ _ _ 0).1, (arb_normalize_mod cfg _
      (arb_init_copy cfg points 0 mod 0).warnings 0).1]

theorem modem_arb_init_file_agrees_witness :
    ∃ (mod : modem_s ℚ) (l : List (Cplx ℚ)),
      modem_create Config.sample .MOD_ARB_ROTATED 3 = .ok mod
      ∧ ((mod.scheme = .MOD_ARB ∨ mod.scheme = .MOD_ARB_MIRRORED
          ∨ mod.scheme = .MOD_ARB_ROTATED)
        ∧ mod.symbol_map = some l ∧ l.length = mod.M
        ∧ [(⟨3, 4⟩ : Cplx ℚ), ⟨4, 3⟩].length = mod.M)
      ∧ pairs_source [(⟨3, 4⟩ : Cplx ℚ), ⟨4, 3⟩] = [.num 3, .num 4, .num 4, .num 3]
      ∧ (modem_arb_init_file Config.sample mod
            (some (pairs_source [⟨3, 4⟩, ⟨4, 3⟩])) 0 0).mod.symbol_map
          = (modem_arb_init Config.sample mod [⟨3, 4⟩, ⟨4, 3⟩]).mod.symbol_map :=
  ⟨_, _, modem_create_arb_rotated_eq Config.sample 3 (by decide) (by decide),
    ⟨Or.inr (Or.inr rfl), rfl, List.length_replicate _ _, by decide⟩, rfl,
    (modem_arb_init_file_agrees Config.sample _ _ [⟨3, 4⟩, ⟨4, 3⟩] 0 0 (Or.inr (Or.inr rfl)) rfl
      (List.length_replicate _ _) (by decide)).2.2.2⟩

/-! ## Signed sums over the reference table -/

theorem ref_at_build_ref (m : Nat) (alpha : F) (ref : List (Option F)) (k : Nat) (hk : k < m)
    (hm : m ≤ ref.length) (h32 : m < 32) :
    ref_at (build_ref m alpha ref) k = 2 ^ k * alpha := by
  unfold ref_at
  rw [build_ref_get m alpha ref k hk hm, shl32_one k (by omega)]
  push_cast
  rfl

theorem signed_sum_value (ref : List (Option F)) (alpha : F) (s : Nat → Bool) (m : Nat)
    (href : ∀ k, k < m → ref_at ref k = 2 ^ k * alpha) :
    ∃ N : Nat, N < 2 ^ m ∧ (∀ k, k < m → N.testBit k = s k)
      ∧ signed_sum ref s m = alpha * (2 * (N : F) + 1 - 2 ^ m) := by
  induction m with
  | zero => exact ⟨0, by simp, fun k hk => by omega, by simp [signed_sum]⟩
  | succ n ih =>
    obtain ⟨N, hN, hb, hsum⟩ := ih (fun k hk => href k (by omega))
    have h2 : 2 ^ (n + 1) = 2 * 2 ^ n := by ring
    by_cases hs : s n = true
    · refine ⟨2 ^ n + N, by omega, ?_, ?_⟩
      · intro k hk
        by_cases hkn : k = n
        · subst hkn
          rw [Nat.testBit_two_pow_add_eq, Nat.testBit_lt_two_pow hN, hs]
          rfl
        · have hk' : k < n := by omega
          rw [Nat.testBit_two_pow_add_gt hk', hb k hk']
      · simp only [signed_sum, hs, if_true]
        rw [hsum, href n (by omega)]
        push_cast
        ring
    · refine ⟨N, by omega, ?_, ?_⟩
      · intro k hk
        by_cases hkn : k = n
        · subst hkn
          rw [Nat.testBit_lt_two_pow hN]
          simpa using hs
        · exact hb k (by omega)
      · simp only [signed_sum, hs]
        rw [hsum, href n (by omega)]
        simp only [Bool.false_eq_true, if_false]
        ring

theorem signed_sum_pattern (ref : List (Option F)) (alpha : F) (m : Nat) (ha : alpha ≠ 0)
    (href : ∀ k, k < m → ref_at ref k = 2 ^ k * alpha) (s t : Nat → Bool)
    (h : signed_sum ref s m = signed_sum ref t m) : ∀ k, k < m → s k = t k := by
  obtain ⟨N, _, hNb, hNs⟩ := signed_sum_value ref alpha s m href
  obtain ⟨K, _, hKb, hKs⟩ := signed_sum_value ref alpha t m href
  rw [hNs, hKs] at h
  have h1 : (2 * (N : F) + 1 - 2 ^ m) = (2 * (K : F) + 1 - 2 ^ m) := mul_left_cancel₀ ha h
  have h2 : (N : F) = (K : F) := by linarith
  have h3 : N = K := by exact_mod_cast h2
  intro k hk
  rw [← hNb k hk, ← hKb k hk, h3]

theorem signed_sum_symbol (ref : List (Option F)) (alpha : F) (m : Nat) (ha : alpha ≠ 0)
    (href : ∀ k, k < m → ref_at ref k = 2 ^ k * alpha) (i j : Nat) (hi : i < 2 ^ m)
    (hj : j < 2 ^ m)
    (h : signed_sum ref (fun k => i.testBit k) m = signed_sum ref (fun k => j.testBit k) m) :
    i = j := by
  apply Nat.eq_of_testBit_eq
  intro k
  by_cases hk : k < m
  · exact signed_sum_pattern ref alpha m ha href _ _ h k hk
  · have hp : 2 ^ m ≤ 2 ^ k := Nat.pow_le_pow_right (by decide) (by omega)
    rw [Nat.testBit_lt_two_pow (by omega), Nat.testBit_lt_two_pow (by omega)]

/-- C21: with `ref[k] = 2 ^ k * alpha` for `k < m` as the constructors' loop builds it and
`alpha` not zero, the signed sum `Σ s_k * ref[k]` determines the sign pattern `s` on `k < m`:
two patterns with the same sum agree at every `k < m`. So the `2 ^ m` symbol indices, each taken
with its bit pattern, give `2 ^ m` distinct sums. The table has room for `m` slots and `m` is
below the word size, so that every `1<<k` of the loop, `k ≤ 30`, is the `int` `2 ^ k`. -/
theorem build_ref_signed_sum_injective (m : Nat) (alpha : F) (ref : List (Option F))
    (hm : m ≤ ref.length) (h32 : m < 32) (ha : alpha ≠ 0) :
    (∀ k, k < m → ref_at (build_ref m alpha ref) k = 2 ^ k * alpha)
      ∧ (∀ s t : Nat → Bool,
          signed_sum (build_ref m alpha ref) s m = signed_sum (build_ref m alpha ref) t m →
          ∀ k, k < m → s k = t k)
      ∧ (∀ i j, i < 2 ^ m → j < 2 ^ m →
          signed_sum (build_ref m alpha ref) (fun k => i.testBit k) m
            = signed_sum (build_ref m alpha ref) (fun k => j.testBit k) m → i = j)
      ∧ ((Finset.range (2 ^ m)).image
          fun i => signed_sum (build_ref m alpha ref) (fun k => i.testBit k) m).card = 2 ^ m := by
  have href : ∀ k, k < m → ref_at (build_ref m alpha ref) k = 2 ^ k * alpha :=
    fun k hk => ref_at_build_ref m alpha ref k hk hm h32
  refine ⟨href, signed_sum_pattern _ alpha m ha href,
    fun i j hi hj h => signed_sum_symbol _ alpha m ha href i j hi hj h, ?_⟩
  rw [Finset.card_image_of_injOn, Finset.card_range]
  intro i hi j hj h
  exact signed_sum_symbol _ alpha m ha href i j (by simpa using hi) (by simpa using hj) h

theorem build_ref_signed_sum_injective_witness :
    (3 ≤ (List.replicate 8 (none : Option ℚ)).length ∧ 3 < 32 ∧ (1 / 2 : ℚ) ≠ 0)
      ∧ ((Finset.range (2 ^ 3)).image
          fun i => signed_sum (build_ref 3 (1 / 2 : ℚ) (List.replicate 8 none))
            (fun k => i.testBit k) 3).card = 2 ^ 3 :=
  ⟨⟨by decide, by decide, by norm_num⟩,
    (build_ref_signed_sum_injective 3 (1 / 2 : ℚ) (List.replicate 8 none) (by decide)
      (by decide) (by norm_num)).2.2.2⟩

/-! ## The divisor of the scale step -/

theorem normSq_le_sum (l : List (Cplx ℝ)) (z : Cplx ℝ) (hz : z ∈ l) :
    z.normSq ≤ (l.map Cplx.normSq).sum := by
  induction l with
  | nil => simp at hz
  | cons w ws ih =>
    simp only [List.map_cons, List.sum_cons]
    rcases List.mem_cons.1 hz with h | h
    · rw [h]
      linarith [sum_normSq_nonneg ws]
    · have hw : 0 ≤ w.normSq := add_nonneg (mul_self_nonneg _) (mul_self_nonneg _)
      linarith [ih h]

theorem normSq_pos (z : Cplx ℝ) (hz : z.re ≠ 0 ∨ z.im ≠ 0) : 0 < z.normSq := by
  unfold Cplx.normSq
  rcases hz with h | h
  · linarith [mul_self_pos.2 h, mul_self_nonneg z.im]
  · linarith [mul_self_pos.2 h, mul_self_nonneg z.re]

theorem arb_scale_divisor_eq (cfg : Config ℝ) (hsqrt : cfg.sqrtf = Real.sqrt)
    (l : List (Cplx ℝ)) (M : Nat) (hlen : l.length = M) :
    arb_scale_divisor cfg l M = Real.sqrt ((l.map Cplx.normSq).sum / (M : ℝ)) := by
  unfold arb_scale_divisor
  rw [← hlen, List.take_length, foldl_energy cfg hsqrt, hsqrt, zero_add]

theorem arb_scale_divisor_pos (cfg : Config ℝ) (hsqrt : cfg.sqrtf = Real.sqrt)
    (l : List (Cplx ℝ)) (M : Nat) (hlen : l.length = M) (hM : 1 ≤ M)
    (hnz : ∃ z ∈ l, z.re ≠ 0 ∨ z.im ≠ 0) : 0 < arb_scale_divisor cfg l M := by
  obtain ⟨z, hz, hne⟩ := hnz
  rw [arb_scale_divisor_eq cfg hsqrt l M hlen]
  apply Real.sqrt_pos.2
  apply div_pos
  · linarith [normSq_le_sum l z hz, normSq_pos z hne]
  · exact_mod_cast hM

/-- C24: in exact real arithmetic (`sqrtf` the real square root), for a `symbol_map` of `M ≥ 1`
points of which at least one is not zero, the divisor `e` of `modem_arb_scale` is strictly
positive and `M` is not zero, so `modem_arb_scale` divides every point by a positive number. For
`MOD_ARB_MIRRORED` and `MOD_ARB_ROTATED` modems created with width `m ≥ 2` (the width ceiling
below the word size) `M ≥ 1`, and loading `M` points of which one is not zero hands
`modem_arb_scale` exactly those points, so the divisor is positive there. -/
theorem modem_arb_scale_divisor_pos (cfg : Config ℝ) (hsqrt : cfg.sqrtf = Real.sqrt)
    (mod : modem_s ℝ) (l : List (Cplx ℝ)) (hl : mod.symbol_map = some l)
    (hlen : l.length = mod.M) (hM : 1 ≤ mod.M) (hnz : ∃ z ∈ l, z.re ≠ 0 ∨ z.im ≠ 0) :
    0 < arb_scale_divisor cfg l mod.M
      ∧ (mod.M : ℝ) ≠ 0
      ∧ modem_arb_scale cfg mod = .ok { mod with
          symbol_map := some (l.map fun z =>
            ⟨z.re / arb_scale_divisor cfg l mod.M, z.im / arb_scale_divisor cfg l mod.M⟩) }
      ∧ (cfg.MAX_MOD_BITS_PER_SYMBOL < 32 → ∀ (scheme : modulation_scheme) (m : Nat),
          scheme = .MOD_ARB_MIRRORED ∨ scheme = .MOD_ARB_ROTATED →
          2 ≤ m → m ≤ cfg.MAX_MOD_BITS_PER_SYMBOL →
          ∃ md : modem_s ℝ, modem_create cfg scheme m = .ok md ∧ 1 ≤ md.M
            ∧ ∀ points : List (Cplx ℝ), points.length = md.M →
                (∃ z ∈ points, z.re ≠ 0 ∨ z.im ≠ 0) →
                (arb_init_copy cfg points 0 md 0).mod.symbol_map = some points
                  ∧ 0 < arb_scale_divisor cfg points md.M
                  ∧ (modem_arb_init cfg md points).err = none) := by
  refine ⟨arb_scale_divisor_pos cfg hsqrt l mod.M hlen hM hnz,
    by exact_mod_cast (by omega : mod.M ≠ 0), modem_arb_scale_divisor cfg mod l hl hlen, ?_⟩
  intro hmax scheme m hsch hm2 hmM
  have hb : m < 32 := by omega
  have hMq : 1 ≤ shl32 1 m >>> 2 := by
    rw [shl32_one m hb, Nat.shiftRight_eq_div_pow]
    have h4 : 2 ^ 2 ≤ 2 ^ m := Nat.pow_le_pow_right (by decide) hm2
    exact (Nat.le_div_iff_mul_le (by decide)).2 (by simpa using h4)
  have key : ∀ md : modem_s ℝ, md.scheme ≠ .MOD_ARB →
      (md.scheme = .MOD_ARB ∨ md.scheme = .MOD_ARB_MIRRORED ∨ md.scheme = .MOD_ARB_ROTATED) →
      md.symbol_map = some (List.replicate md.M (Cplx.ofReal 0)) → 1 ≤ md.M →
      ∀ points : List (Cplx ℝ), points.length = md.M →
        (∃ z ∈ points, z.re ≠ 0 ∨ z.im ≠ 0) →
        (arb_init_copy cfg points 0 md 0).mod.symbol_map = some points
          ∧ 0 < arb_scale_divisor cfg points md.M
          ∧ (modem_arb_init cfg md points).err = none := by
    intro md hna hsv hsm hM1 points hp hz
    have hc := (arb_init_copy_ok cfg points _ md hsm
      (hp.trans (List.length_replicate _ _).symm)).2
    refine ⟨by rw [hc], arb_scale_divisor_pos cfg hsqrt points md.M hp hM1 hz, ?_⟩
    rw [modem_arb_init_eq cfg md _ points hsv hsm (List.length_replicate _ _) hp]
    obtain ⟨ms, _, h3⟩ := arb_normalize_quadrant cfg { md with symbol_map := some points }
      points (arb_init_copy cfg points 0 md 0).warnings hna rfl hp
    rw [h3]
  rcases hsch with rfl | rfl
  · exact ⟨_, (modem_create_dispatch cfg _ m (by omega) hmM).trans
      (modem_create_arb_mirrored_eq cfg m (by omega) hmM), hMq,
      key _ (show modulation_scheme.MOD_ARB_MIRRORED ≠ .MOD_ARB by decide)
        (Or.inr (Or.inl rfl)) rfl hMq⟩
  · exact ⟨_, (modem_create_dispatch cfg _ m (by omega) hmM).trans
      (modem_create_arb_rotated_eq cfg m (by omega) hmM), hMq,
      key _ (show modulation_scheme.MOD_ARB_ROTATED ≠ .MOD_ARB by decide)
        (Or.inr (Or.inr rfl)) rfl hMq⟩

theorem modem_arb_scale_divisor_pos_witness :
    ∃ mod : modem_s ℝ,
      modem_create (Config.eightBit Real.pi Real.sqrt) .MOD_ARB_MIRRORED 3 = .ok mod
      ∧ ((Config.eightBit Real.pi Real.sqrt).sqrtf = Real.sqrt
        ∧ ({ mod with symbol_map := some [⟨3, 4⟩, ⟨0, 0⟩] } : modem_s ℝ).symbol_map
            = some [⟨3, 4⟩, ⟨0, 0⟩]
        ∧ [(⟨3, 4⟩ : Cplx ℝ), ⟨0, 0⟩].length = mod.M ∧ 1 ≤ mod.M
        ∧ ∃ z ∈ [(⟨3, 4⟩ : Cplx ℝ), ⟨0, 0⟩], z.re ≠ 0 ∨ z.im ≠ 0)
      ∧ 0 < arb_scale_divisor (Config.eightBit Real.pi Real.sqrt) [⟨3, 4⟩, ⟨0, 0⟩] mod.M :=
  ⟨_, modem_create_arb_mirrored_eq (Config.eightBit Real.pi Real.sqrt) 3 (by decide)
      (by decide),
    ⟨rfl, rfl, by decide, by decide, ⟨⟨3, 4⟩, by simp, Or.inl (by norm_num)⟩⟩,
    (modem_arb_scale_divisor_pos (Config.eightBit Real.pi Real.sqrt) rfl
      ({ modem_alloc (Config.eightBit Real.pi Real.sqrt) .MOD_ARB_MIRRORED with
        m := 3, M := shl32 1 3 >>> 2, symbol_map := some [⟨3, 4⟩, ⟨0, 0⟩],
        modulate_func := some .arb, demodulate_func := some .arb } : modem_s ℝ)
      [⟨3, 4⟩, ⟨0, 0⟩] rfl (by decide) (by decide)
      ⟨⟨3, 4⟩, by simp, Or.inl (by norm_num)⟩).1⟩

/-! ## Loading what was loaded -/

omit [LinearOrderedField F] in
theorem map_eta (l : List (Cplx F)) : (l.map fun z => (⟨z.re, z.im⟩ : Cplx F)) = l := by
  induction l with
  | nil => rfl
  | cons z zs ih => simp only [List.map_cons, ih]

theorem sum_re_div (l : List (Cplx ℝ)) (e : ℝ) :
    ((l.map fun z => (⟨z.re / e, z.im / e⟩ : Cplx ℝ)).map Cplx.re).sum
      = (l.map Cplx.re).sum / e := by
  induction l with
  | nil => simp
  | cons z zs ih =>
    simp only [List.map_cons, List.sum_cons, ih]
    ring

theorem arb_scale_divisor_size (cfg : Config ℝ) (hsqrt : cfg.sqrtf = Real.sqrt)
    (l : List (Cplx ℝ)) (M : Nat) (hlen : l.length = M)
    (hdiv : arb_scale_divisor cfg l M ≠ 0) : 1 ≤ M := by
  by_contra hM
  have h0 : M = 0 := by omega
  apply hdiv
  rw [arb_scale_divisor_eq cfg hsqrt l M hlen, h0]
  simp

theorem balance_fixed (mod : modem_s ℝ) (sm : List (Cplx ℝ)) (hlen : sm.length = mod.M)
    (hsum : (sm.map Cplx.re).sum = 0) :
    modem_arb_balance_iq { mod with symbol_map := some sm }
      = .ok { mod with symbol_map := some sm } := by
  rw [modem_arb_balance_iq_ok { mod with symbol_map := some sm } sm rfl hlen, foldl_re, hsum]
  simp only [zero_add, zero_div, sub_zero]
  rw [map_eta]

theorem scale_fixed (cfg : Config ℝ) (hsqrt : cfg.sqrtf = Real.sqrt) (mod : modem_s ℝ)
    (sm : List (Cplx ℝ)) (hlen : sm.length = mod.M) (hen : avg_energy mod.M sm = 1) :
    modem_arb_scale cfg { mod with symbol_map := some sm }
      = .ok { mod with symbol_map := some sm } := by
  have hd : arb_scale_divisor cfg sm mod.M = 1 := by
    rw [arb_scale_divisor_eq cfg hsqrt sm mod.M hlen]
    unfold avg_energy at hen
    rw [div_eq_inv_mul, ← one_div, hen, Real.sqrt_one]
  rw [modem_arb_scale_divisor cfg { mod with symbol_map := some sm } sm rfl hlen, hd]
  simp only [div_one]
  rw [map_eta]

theorem modem_arb_init_quadrant_steps (cfg : Config F) (mod : modem_s F)
    (l points ls : List (Cplx F)) (ha : mod.scheme ≠ .MOD_ARB)
    (hsv : mod.scheme = .MOD_ARB ∨ mod.scheme = .MOD_ARB_MIRRORED
      ∨ mod.scheme = .MOD_ARB_ROTATED)
    (hl : mod.symbol_map = some l) (hlen : l.length = mod.M) (hp : points.length = mod.M)
    (hs : modem_arb_scale cfg { mod with symbol_map := some points }
      = .ok { mod with symbol_map := some ls }) :
    (modem_arb_init cfg mod points).err = none
      ∧ (modem_arb_init cfg mod points).mod.symbol_map = some ls := by
  rw [modem_arb_init_eq cfg mod l points hsv hl hlen hp]
  unfold arb_normalize
  rw [if_neg ha]
  simp only
  rw [hs]
  exact ⟨rfl, rfl⟩

/-- C25: in exact real arithmetic (`sqrtf` the real square root), when `modem_arb_init` loads `M`
points into a modem of an arbitrary scheme and the divisor of its scale step is not zero, loading
the `symbol_map` it leaves into a modem of the same scheme and size returns normally and leaves
that same `symbol_map`: the second balance step (scheme `MOD_ARB`) and the second scale step
both give back the points they receive. -/
theorem modem_arb_init_idempotent (cfg : Config ℝ) (hsqrt : cfg.sqrtf = Real.sqrt)
    (mod mod' : modem_s ℝ) (l l' points : List (Cplx ℝ))
    (hs : mod.scheme = .MOD_ARB ∨ mod.scheme = .MOD_ARB_MIRRORED ∨ mod.scheme = .MOD_ARB_ROTATED)
    (hl : mod.symbol_map = some l) (hlen : l.length = mod.M) (hp : points.length = mod.M)
    (hs' : mod'.scheme = mod.scheme) (hM' : mod'.M = mod.M)
    (hl' : mod'.symbol_map = some l') (hlen' : l'.length = mod'.M) :
    (mod.scheme = .MOD_ARB → ∀ (mb : modem_s ℝ) (lb : List (Cplx ℝ)),
        modem_arb_balance_iq { mod with symbol_map := some points } = .ok mb →
        mb.symbol_map = some lb → arb_scale_divisor cfg lb mod.M ≠ 0 →
        ∃ sm, (modem_arb_init cfg mod points).mod.symbol_map = some sm
          ∧ modem_arb_balance_iq { mod' with symbol_map := some sm }
              = .ok { mod' with symbol_map := some sm }
          ∧ modem_arb_scale cfg { mod' with symbol_map := some sm }
              = .ok { mod' with symbol_map := some sm }
          ∧ (modem_arb_init cfg mod' sm).err = none
          ∧ (modem_arb_init cfg mod' sm).mod.symbol_map = some sm)
      ∧ (mod.scheme = .MOD_ARB_MIRRORED ∨ mod.scheme = .MOD_ARB_ROTATED →
        arb_scale_divisor cfg points mod.M ≠ 0 →
        ∃ sm, (modem_arb_init cfg mod points).mod.symbol_map = some sm
          ∧ modem_arb_scale cfg { mod' with symbol_map := some sm }
              = .ok { mod' with symbol_map := some sm }
          ∧ (modem_arb_init cfg mod' sm).err = none
          ∧ (modem_arb_init cfg mod' sm).mod.symbol_map = some sm) := by
  constructor
  · intro ha mb lb hb hlb hdiv
    have hb' := modem_arb_balance_iq_ok { mod with symbol_map := some points } points rfl hp
    have hlb_eq : lb = points.map fun z =>
        (⟨z.re - points.foldl (fun mean z => mean + z.re) 0 / (mod.M : ℝ), z.im⟩ : Cplx ℝ) := by
      rw [hb'] at hb
      cases hb
      cases hlb
      rfl
    have hlbl : lb.length = mod.M := by rw [hlb_eq]; simpa using hp
    have hmb : mb = { mod with symbol_map := some lb } := by
      rw [hb'] at hb
      cases hb
      cases hlb
      rfl
    rw [hmb] at hb
    have hM : 1 ≤ mod.M := arb_scale_divisor_size cfg hsqrt lb mod.M hlbl hdiv
    have hMr : (mod.M : ℝ) ≠ 0 := by exact_mod_cast (by omega : mod.M ≠ 0)
    have hsc := modem_arb_scale_divisor cfg { mod with symbol_map := some lb } lb rfl hlbl
    have h1 := modem_arb_init_arb_steps cfg mod l points lb _ ha hl hlen hp hb hsc
    have hen := scaled_unit_energy cfg hsqrt lb mod.M hlbl hM hdiv
    have hsum_lb : (lb.map Cplx.re).sum = 0 := by
      rw [hlb_eq, sum_re_sub, foldl_re, zero_add, hp]
      field_simp
    have hsum : ((lb.map fun z => (⟨z.re / arb_scale_divisor cfg lb mod.M,
        z.im / arb_scale_divisor cfg lb mod.M⟩ : Cplx ℝ)).map Cplx.re).sum = 0 := by
      rw [sum_re_div, hsum_lb, zero_div]
    have hsml : (lb.map fun z => (⟨z.re / arb_scale_divisor cfg lb mod.M,
        z.im / arb_scale_divisor cfg lb mod.M⟩ : Cplx ℝ)).length = mod'.M := by
      rw [hM']; simpa using hlbl
    have hbf := balance_fixed mod' _ hsml hsum
    have hsf := scale_fixed cfg hsqrt mod' _ hsml (by rw [hM']; exact hen)
    have h2 := modem_arb_init_arb_steps cfg mod' l' _ _ _ (hs'.trans ha) hl' hlen' hsml hbf hsf
    exact ⟨_, h1.2, hbf, hsf, h2.1, h2.2⟩
  · intro hq hdiv
    have ha : mod.scheme ≠ .MOD_ARB := by
      rcases hq with h | h <;> rw [h] <;> decide
    have hM : 1 ≤ mod.M := arb_scale_divisor_size cfg hsqrt points mod.M hp hdiv
    have hsc := modem_arb_scale_divisor cfg { mod with symbol_map := some points } points rfl hp
    have h1 := modem_arb_init_quadrant_steps cfg mod l points _ ha hs hl hlen hp hsc
    have hen := scaled_unit_energy cfg hsqrt points mod.M hp hM hdiv
    have hsml : (points.map fun z => (⟨z.re / arb_scale_divisor cfg points mod.M,
        z.im / arb_scale_divisor cfg points mod.M⟩ : Cplx ℝ)).length = mod'.M := by
      rw [hM']; simpa using hp
    have hsf := scale_fixed cfg hsqrt mod' _ hsml (by rw [hM']; exact hen)
    have h2 := modem_arb_init_quadrant_steps cfg mod' l' _ _ (by rw [hs']; exact ha)
      (by rw [hs']; exact hs) hl' hlen' hsml hsf
    exact ⟨_, h1.2, hsf, h2.1, h2.2⟩

theorem modem_arb_init_idempotent_witness :
    ∃ (mod : modem_s ℝ) (l sm : List (Cplx ℝ)),
      modem_create (Config.eightBit Real.pi Real.sqrt) .MOD_ARB_MIRRORED 3 = .ok mod
      ∧ ((Config.eightBit Real.pi Real.sqrt).sqrtf = Real.sqrt
        ∧ (mod.scheme = .MOD_ARB ∨ mod.scheme = .MOD_ARB_MIRRORED
          ∨ mod.scheme = .MOD_ARB_ROTATED)
        ∧ mod.symbol_map = some l ∧ l.length = mod.M
        ∧ [(⟨3, 4⟩ : Cplx ℝ), ⟨4, 3⟩].length = mod.M
        ∧ mod.scheme = mod.scheme ∧ mod.M = mod.M)
      ∧ (modem_arb_init (Config.eightBit Real.pi Real.sqrt) mod [⟨3, 4⟩, ⟨4, 3⟩]).mod.symbol_map
          = some sm
      ∧ (modem_arb_init (Config.eightBit Real.pi Real.sqrt) mod sm).err = none
      ∧ (modem_arb_init (Config.eightBit Real.pi Real.sqrt) mod sm).mod.symbol_map
          = some sm := by
  have hdiv : arb_scale_divisor (Config.eightBit Real.pi Real.sqrt)
      [(⟨3, 4⟩ : Cplx ℝ), ⟨4, 3⟩] (shl32 1 3 >>> 2) ≠ 0 :=
    (arb_scale_divisor_pos (Config.eightBit Real.pi Real.sqrt) rfl [⟨3, 4⟩, ⟨4, 3⟩]
      (shl32 1 3 >>> 2) (by decide) (by decide)
      ⟨⟨3, 4⟩, by simp, Or.inl (by norm_num)⟩).ne'
  obtain ⟨sm, h1, _, h3, h4⟩ := (modem_arb_init_idempotent
    (Config.eightBit Real.pi Real.sqrt) rfl
    { modem_alloc (Config.eightBit Real.pi Real.sqrt) .MOD_ARB_MIRRORED with
      m := 3, M := shl32 1 3 >>> 2, symbol_map := calloc_symbol_map (shl32 1 3 >>> 2),
      modulate_func := some .arb, demodulate_func := some .arb }
    { modem_alloc (Config.eightBit Real.pi Real.sqrt) .MOD_ARB_MIRRORED with
      m := 3, M := shl32 1 3 >>> 2, symbol_map := calloc_symbol_map (shl32 1 3 >>> 2),
      modulate_func := some .arb, demodulate_func := some .arb }
    (List.replicate (shl32 1 3 >>> 2) (Cplx.ofReal 0))
    (List.replicate (shl32 1 3 >>> 2) (Cplx.ofReal 0)) [⟨3, 4⟩, ⟨4, 3⟩] (Or.inr (Or.inl rfl))
    rfl (List.length_replicate _ _) (by decide) rfl rfl rfl
    (List.length_replicate _ _)).2 (Or.inl rfl) hdiv
  exact ⟨_, _, sm,
    modem_create_arb_mirrored_eq (Config.eightBit Real.pi Real.sqrt) 3 (by decide) (by decide),
    ⟨rfl, Or.inr (Or.inl rfl), rfl, List.length_replicate _ _, by decide, rfl, rfl⟩,
    h1, h3, h4⟩

end Modem
